import Mathlib

/-! The replay task, the diff reporter and the command actions of substate-cli.

A shallow embedding of `cmd/substate-cli/replay/replay.go` and
`cmd/substate-cli/replay/storage-flat.go`.

* Console output is a list of strings, one element per `fmt.Printf` call, in call order.
* A Go `map[K]V` is an association list with pairwise distinct keys; the order in which a
  `range` statement enumerates it is not fixed by the language, so every `range` statement
  takes its enumeration from a `RangeOrder`.
* The EVM interpreter, the state database, the chain rules, the substate equality tests, the
  address derivation and the log bloom live outside these files; they are the fields of
  `External`.
* Errors are values of `GoError`, which remembers whether the error came out of the
  interpreter or was built by `fmt.Errorf` in this package.
-/

namespace Replay

/-! ## Data model -/

/-- The type `common.Address`, a 20-byte array, identified with the number it encodes.
The zero value of the Go type is `0`. -/
abbrev Address := Nat

/-- The type `common.Hash`, a 32-byte array, identified with the number it encodes. -/
abbrev Hash := Nat

/-- The type `types.Bloom`, a 256-byte array, identified with the number it encodes. -/
abbrev Bloom := Nat

/-- A Go `[]byte`. `bytes.Equal` does not tell a nil slice from an empty one, and neither
does this type. -/
abbrev Bytes := List Nat

/-- A Go `map[K]V`: its entries, with pairwise distinct keys. `len` is `List.length` and
an index expression `m[k]` is `List.lookup k m`. -/
abbrev GoMap (K V : Type) := List (K × V)

/-- The type `substate.SubstateAccount`. `Balance` is a `*big.Int` and may be nil. -/
structure SubstateAccount where
  Nonce : Nat
  Balance : Option Int
  Code : Bytes
  Storage : GoMap Hash Hash
  deriving DecidableEq, Repr

/-- The type `substate.SubstateAlloc`, `map[common.Address]*SubstateAccount`
(the accounts are taken non-nil). -/
abbrev SubstateAlloc := GoMap Address SubstateAccount

/-- The fields of `types.Log` that the diff reporter reads. -/
structure Log where
  Address : Address
  Topics : List Hash
  Data : Bytes
  deriving DecidableEq, Repr

/-- The type `substate.SubstateResult` (the logs are taken non-nil). -/
structure SubstateResult where
  Status : Nat
  Bloom : Bloom
  Logs : List Log
  ContractAddress : Address
  GasUsed : Nat
  deriving DecidableEq, Repr

/-- The constant `types.ReceiptStatusFailed`. -/
def ReceiptStatusFailed : Nat := 0

/-- The constant `types.ReceiptStatusSuccessful`. -/
def ReceiptStatusSuccessful : Nat := 1

/-! ## Formatting -/

/-- The `%v` rendering of the types whose formatting is defined outside this package. -/
structure Fmt where
  address : Address → String
  hash : Hash → String
  bloom : Bloom → String
  bytes : Bytes → String
  bigInt : Option Int → String

/-- The `%v` rendering of a `uint64` or an `int` holding a non-negative value: decimal. -/
def fmtUint (n : Nat) : String := toString n

/-- The enumeration order of every `range` statement over a map in the diff reporter.
`alloc i m` is the order in which the `i`-th `range` statement of
`printAllocationDiffSummary` enumerates `m`; `storage label i m` is the same for the `i`-th
`range` statement of `printAccountDiffSummary` called with `label`. -/
structure RangeOrder where
  alloc : Nat → SubstateAlloc → SubstateAlloc
  storage : String → Nat → GoMap Hash Hash → GoMap Hash Hash

/-- A `range` statement visits every entry of the map exactly once. -/
def RangeOrder.Valid (ro : RangeOrder) : Prop :=
  (∀ i m, (ro.alloc i m).Perm m) ∧ (∀ label i m, (ro.storage label i m).Perm m)

/-- The enumeration that visits the entries in the order in which they are listed. -/
def RangeOrder.listed : RangeOrder := ⟨fun _ m => m, fun _ _ m => m⟩

/-- The enumeration that visits the entries in the reverse of the listed order. -/
def RangeOrder.reversed : RangeOrder := ⟨fun _ m => m.reverse, fun _ _ m => m.reverse⟩

/-! ## The diff reporter -/

/-- The function `printIfDifferent`: the strings printed and the returned flag. -/
def printIfDifferent {T : Type} [DecidableEq T] (v : T → String) (label : String)
    (want have_ : T) : List String × Bool :=
  if want ≠ have_ then
    (["  Different " ++ label ++ ":\n",
      "    want: " ++ v want ++ "\n",
      "    have: " ++ v have_ ++ "\n"], true)
  else
    ([], false)

/-- The function `printIfDifferentBytes`. -/
def printIfDifferentBytes (v : Bytes → String) (label : String)
    (want have_ : Bytes) : List String × Bool :=
  if !(want == have_) then
    (["  Different " ++ label ++ ":\n",
      "    want: " ++ v want ++ "\n",
      "    have: " ++ v have_ ++ "\n"], true)
  else
    ([], false)

/-- The method `(*big.Int).Cmp`. -/
def Cmp (x y : Int) : Int := if x < y then -1 else if y < x then 1 else 0

/-- The function `printIfDifferentBigInt`; `Cmp` is reached only with both pointers non-nil. -/
def printIfDifferentBigInt (v : Option Int → String) (label : String)
    (want have_ : Option Int) : List String × Bool :=
  if want.isNone && have_.isNone then
    ([], false)
  else if (match want, have_ with
      | some w, some h => Cmp w h != 0
      | _, _ => true) then
    (["  Different " ++ label ++ ":\n",
      "    want: " ++ v want ++ "\n",
      "    have: " ++ v have_ ++ "\n"], true)
  else
    ([], false)

/-- The function `printLogDiffSummary`. The topics are indexed only when both logs have the
same number of them, so the index is in range on both sides. -/
def printLogDiffSummary (F : Fmt) (label : String) (want have_ : Log) : List String :=
  let out := (printIfDifferent F.address (label ++ ".address") want.Address have_.Address).1
  let size := printIfDifferent fmtUint (label ++ ".Topics size")
    want.Topics.length have_.Topics.length
  let out := out ++ size.1
  let out :=
    if !size.2 then
      (List.range want.Topics.length).foldl (fun out i =>
        match want.Topics[i]?, have_.Topics[i]? with
        | some w, some h =>
          out ++ (printIfDifferent F.hash (label ++ ".Topics[" ++ toString i ++ "]") w h).1
        | _, _ => out) out
    else out
  out ++ (printIfDifferentBytes F.bytes (label ++ ".data") want.Data have_.Data).1

/-- The function `printResultDiffSummary`. The logs are indexed only when both receipts have
the same number of them. -/
def printResultDiffSummary (F : Fmt) (want have_ : SubstateResult) : List String :=
  let out := (printIfDifferent fmtUint "status" want.Status have_.Status).1
  let out := out ++
    (printIfDifferent F.address "contract address" want.ContractAddress
      have_.ContractAddress).1
  let out := out ++ (printIfDifferent fmtUint "gas usage" want.GasUsed have_.GasUsed).1
  let out := out ++ (printIfDifferent F.bloom "log bloom filter" want.Bloom have_.Bloom).1
  let size := printIfDifferent fmtUint "log size" want.Logs.length have_.Logs.length
  let out := out ++ size.1
  if !size.2 then
    (List.range want.Logs.length).foldl (fun out i =>
      match want.Logs[i]?, have_.Logs[i]? with
      | some w, some h => out ++ printLogDiffSummary F ("log[" ++ toString i ++ "]") w h
      | _, _ => out) out
  else out

/-- The function `printAccountDiffSummary`. -/
def printAccountDiffSummary (F : Fmt) (ro : RangeOrder) (label : String)
    (want have_ : SubstateAccount) : List String :=
  let out := (printIfDifferent fmtUint (label ++ ".Nonce") want.Nonce have_.Nonce).1
  let out := out ++
    (printIfDifferentBigInt F.bigInt (label ++ ".Balance") want.Balance have_.Balance).1
  let out := out ++ (printIfDifferentBytes F.bytes (label ++ ".Code") want.Code have_.Code).1
  let out := out ++
    (printIfDifferent fmtUint ("len(" ++ label ++ ".Storage)")
      want.Storage.length have_.Storage.length).1
  let out := (ro.storage label 0 want.Storage).foldl (fun out kv =>
    let present := (have_.Storage.lookup kv.1).isSome
    if !present then
      out ++ ["    " ++ label ++ ".Storage misses key " ++ F.hash kv.1 ++ "\n"]
    else out) out
  let out := (ro.storage label 1 have_.Storage).foldl (fun out kv =>
    let present := (want.Storage.lookup kv.1).isSome
    if !present then
      out ++ ["    " ++ label ++ ".Storage has extra key " ++ F.hash kv.1 ++ "\n"]
    else out) out
  (ro.storage label 2 have_.Storage).foldl (fun out kv =>
    match want.Storage.lookup kv.1 with
    | some should =>
      out ++ (printIfDifferent F.hash
        (label ++ ".Storage[" ++ F.hash kv.1 ++ "]") should kv.2).1
    | none => out) out

/-- The function `printAllocationDiffSummary`. -/
def printAllocationDiffSummary (F : Fmt) (ro : RangeOrder)
    (want have_ : SubstateAlloc) : List String :=
  let out := (printIfDifferent fmtUint "substate alloc size" want.length have_.length).1
  let out := (ro.alloc 0 want).foldl (fun out kv =>
    let present := (have_.lookup kv.1).isSome
    if !present then
      out ++ ["    missing key=" ++ F.address kv.1 ++ "\n"]
    else out) out
  let out := (ro.alloc 1 have_).foldl (fun out kv =>
    let present := (want.lookup kv.1).isSome
    if !present then
      out ++ ["    extra key=" ++ F.address kv.1 ++ "\n"]
    else out) out
  (ro.alloc 2 have_).foldl (fun out kv =>
    match want.lookup kv.1 with
    | some should =>
      out ++ printAccountDiffSummary F ro ("key=" ++ F.address kv.1 ++ ":") should kv.2
    | none => out) out

/-! ## The replay task -/

/-- The fields of `substate.SubstateEnv`. `BlockHashes` is a map and may be nil. -/
structure SubstateEnv where
  Coinbase : Address
  Difficulty : Option Int
  GasLimit : Nat
  Number : Nat
  Timestamp : Nat
  BlockHashes : Option (GoMap Nat Hash)
  BaseFee : Option Int
  deriving DecidableEq, Repr

/-- The fields of `substate.SubstateMessage`; `To` is nil for a contract creation. -/
structure SubstateMessage where
  Nonce : Nat
  CheckNonce : Bool
  GasPrice : Option Int
  Gas : Nat
  From : Address
  To : Option Address
  Value : Option Int
  Data : Bytes
  deriving DecidableEq, Repr

/-- The type `substate.Substate`. -/
structure Substate where
  InputAlloc : SubstateAlloc
  Env : SubstateEnv
  Message : SubstateMessage
  OutputAlloc : SubstateAlloc
  Result : SubstateResult
  deriving DecidableEq, Repr

/-- The type `ReplayConfig`. -/
structure ReplayConfig where
  vm_impl : String
  only_successful : Bool
  use_in_memory_db : Bool
  deriving DecidableEq, Repr

/-- A Go `error` value: either handed over by a collaborator outside this package (the
interpreter, `os.Create`, the task pool) or built here by `fmt.Errorf`. -/
inductive GoError where
  | external (msg : String)
  | errorf (msg : String)
  deriving DecidableEq, Repr

/-- The method `Error()`. -/
def GoError.Error : GoError → String
  | .external msg => msg
  | .errorf msg => msg

/-- The type `evmcore.ExecutionResult`: `Err` is the error of a failed or reverted message. -/
structure ExecutionResult where
  UsedGas : Nat
  Err : Option String
  deriving DecidableEq, Repr

/-- The method `(*ExecutionResult).Failed`. -/
def ExecutionResult.Failed (r : ExecutionResult) : Bool := r.Err.isSome

/-- What one call of `evmcore.ApplyMessage` on a fresh state database does, as far as
`replayTask` can observe it: the block numbers for which the interpreter invoked the
`GetHash` callback, in call order; the returned pair; and what the state database answers
afterwards to `GetLogs` and `GetSubstatePostAlloc`. -/
structure Execution where
  hashCalls : List Nat
  msgResult : ExecutionResult
  err : Option String
  logs : List Log
  postAlloc : SubstateAlloc

/-- The collaborators of `replayTask` that live outside this package. -/
structure External where
  ApplyMessage : ReplayConfig → Int → Substate → Execution
  IsByzantium : Nat → Bool
  IsEIP158 : Nat → Bool
  CreateAddress : Address → Nat → Address
  LogsBloom : List Log → Bloom
  ResultEqual : SubstateResult → SubstateResult → Bool
  AllocEqual : SubstateAlloc → SubstateAlloc → Bool
  fmt : Fmt
  order : RangeOrder

/-- What `replayTask` and the command actions do, in order. -/
inductive Event where
  | Printf (s : String)
  | MakeInMemoryStateDB
  | MakeOffTheChainStateDB
  | Prepare (txIndex : Int)
  | Snapshot
  | ApplyMessage
  | GetHash (num : Nat)
  | RevertToSnapshot
  | Finalise (deleteEmptyObjects : Bool)
  | IntermediateRoot (deleteEmptyObjects : Bool)
  | GetLogs
  | GetSubstatePostAlloc
  | ResultEqual
  | AllocEqual
  | printResultDiffSummary
  | printAllocationDiffSummary
  | SetSubstateFlags
  | OpenSubstateDBReadOnly
  | CloseSubstateDB
  | Create (name : String)
  | StartCPUProfile
  | StopCPUProfile
  | resetVmDuration
  | NewSubstateTaskPool (name : String) (first last : Nat)
  | Execute
  | PrintStatistics
  | PrintCollectedInstructionStatistics
  deriving DecidableEq, Repr

/-- The closure `getHash` of `replayTask`, with the captured variable `hashError` passed in
and out. A lookup in a map that lacks the key yields the zero hash. -/
def getHash (inputEnv : SubstateEnv) (hashError : Option GoError) (num : Nat) :
    Hash × Option GoError :=
  match inputEnv.BlockHashes with
  | none =>
    (0, some (.errorf ("getHash(" ++ toString num ++ ") invoked, no blockhashes provided")))
  | some blockHashes =>
    match blockHashes.lookup num with
    | some h => (h, hashError)
    | none =>
      (0, some (.errorf
        ("getHash(" ++ toString num ++ ") invoked, blockhash for that block not provided")))

/-- The receipt `evmResult` that `replayTask` builds after the message has run. The origin
of the transaction context made by `evmcore.NewEVMTxContext` is the sender of the message;
a field that is not assigned keeps its zero value. -/
def evmResult (X : External) (msg : SubstateMessage) (run : Execution) : SubstateResult :=
  { Status := if run.msgResult.Failed then ReceiptStatusFailed else ReceiptStatusSuccessful
    Logs := run.logs
    Bloom := X.LogsBloom run.logs
    ContractAddress :=
      match msg.To with
      | none => X.CreateAddress msg.From msg.Nonce
      | some _ => 0
    GasUsed := run.msgResult.UsedGas }

/-- The error returned on a mismatch. -/
def inconsistentOutput : GoError := .errorf "inconsistent output"

/-- The function `replayTask`: the returned error (`none` is nil) and what it did. -/
def replayTask (X : External) (config : ReplayConfig) (block : Nat) (tx : Int)
    (recording : Substate) : Option GoError × List Event :=
  if config.only_successful && recording.Result.Status != ReceiptStatusSuccessful then
    (none, [])
  else
    let inputEnv := recording.Env
    let inputMessage := recording.Message
    let outputAlloc := recording.OutputAlloc
    let outputResult := recording.Result
    let trace : List Event :=
      [if config.use_in_memory_db then .MakeInMemoryStateDB else .MakeOffTheChainStateDB,
       .Prepare tx, .Snapshot, .ApplyMessage]
    let run := X.ApplyMessage config tx recording
    let hashError : Option GoError :=
      run.hashCalls.foldl (fun hashError num => (getHash inputEnv hashError num).2) none
    let trace := trace ++ run.hashCalls.map Event.GetHash
    match run.err with
    | some err => (some (.external err), trace ++ [.RevertToSnapshot])
    | none =>
    match hashError with
    | some e => (some e, trace)
    | none =>
      let trace := trace ++
        [if X.IsByzantium inputEnv.Number then .Finalise true
         else .IntermediateRoot (X.IsEIP158 inputEnv.Number)]
      let evmResult := evmResult X inputMessage run
      let trace := trace ++ [.GetLogs, .GetSubstatePostAlloc]
      let evmAlloc := run.postAlloc
      let r := X.ResultEqual outputResult evmResult
      let a := X.AllocEqual outputAlloc evmAlloc
      let trace := trace ++ [.ResultEqual, .AllocEqual]
      if !(r && a) then
        let trace := trace ++
          [.Printf ("block: " ++ toString block ++ " Transaction: " ++ toString tx ++ "\n")]
        let trace :=
          if !r then
            trace ++ [.Printf "inconsistent output: result\n", .printResultDiffSummary] ++
              (printResultDiffSummary X.fmt outputResult evmResult).map Event.Printf
          else trace
        let trace :=
          if !a then
            trace ++ [.Printf "inconsistent output: alloc\n", .printAllocationDiffSummary] ++
              (printAllocationDiffSummary X.fmt X.order outputAlloc evmAlloc).map Event.Printf
          else trace
        (some inconsistentOutput, trace)
      else
        (none, trace)

/-! ## The command actions -/

/-- The two errors of package `strconv`. -/
inductive NumError where
  | ErrSyntax
  | ErrRange
  deriving DecidableEq, Repr

/-- The loop of `strconv.ParseUint(s, 10, 64)` over the remaining bytes, with `n` the value
read so far. It returns the value and the error, as the Go function does. A byte that is
not a decimal digit is a syntax error (a letter is a digit of value ten or more, which base
10 refuses; the underscore is allowed for base 0 only). The cutoff is `maxUint64/10 + 1`, so
`n * 10` does not overflow below it; the addition of the digit wraps at `2^64`. -/
def parseUintLoop : List Char → Nat → Nat × Option NumError
  | [], n => (n, none)
  | c :: cs, n =>
    if 48 ≤ c.toNat ∧ c.toNat ≤ 57 then
      let d := c.toNat - 48
      if n ≥ (2 ^ 64 - 1) / 10 + 1 then
        (2 ^ 64 - 1, some .ErrRange)
      else
        let n := n * 10
        let n1 := (n + d) % 2 ^ 64
        if n1 < n ∨ n1 > 2 ^ 64 - 1 then
          (2 ^ 64 - 1, some .ErrRange)
        else
          parseUintLoop cs n1
    else
      (0, some .ErrSyntax)

/-- The function `strconv.ParseUint(s, 10, 64)` on the bytes of `s`. -/
def ParseUint (s : List Char) : Nat × Option NumError :=
  if s = [] then (0, some .ErrSyntax) else parseUintLoop s 0

/-- The function `strconv.ParseInt(s, 10, 64)`: the value and the error. -/
def ParseInt (s : String) : Int × Option NumError :=
  match s.data with
  | [] => (0, some .ErrSyntax)
  | c :: cs =>
    let neg := decide (c = '-')
    let rest := if c = '+' ∨ c = '-' then cs else c :: cs
    let (un, err) := ParseUint rest
    if err = some .ErrSyntax then
      (0, err)
    else
      let cutoff : Nat := 2 ^ 63
      if !neg && decide (un ≥ cutoff) then
        ((cutoff : Int) - 1, some .ErrRange)
      else if neg && decide (un > cutoff) then
        (-(cutoff : Int), some .ErrRange)
      else
        let n : Int := un
        (if neg then -n else n, none)

/-- The conversion `uint64(x)` of an `int64`. -/
def toUint64 (x : Int) : Nat := (x % 2 ^ 64).toNat

/-- What the command actions read from `*cli.Context`: the arguments and the flags. -/
structure Context where
  Args : List String
  chainid : Int
  profilingCall : Bool
  profilingOpcode : Bool
  cpuprofile : String
  interpreter : String
  onlySuccessful : Bool
  faststatedb : Bool

/-- What the command actions meet outside this package: the build stamps, the outcome of
`os.Create`, the outcome of `taskPool.Execute()` for a pool over a block range, and the
rendering of the accumulated VM time. -/
structure World where
  gitDate : String
  gitCommit : String
  Create : String → Option GoError
  Execute : String → Nat → Nat → Option GoError
  vmDuration : String

/-- The function `replayAction`: the returned error and what it did. The deferred calls run
when the function returns. The assignments to the profiling switches of package `vm` leave
no trace here. -/
def replayAction (W : World) (ctx : Context) : Option GoError × List Event :=
  if ctx.Args.length ≠ 2 then
    (some (.errorf "substate-cli replay command requires exactly 2 arguments"), [])
  else
    let trace : List Event :=
      [.Printf ("chain-id: " ++ toString ctx.chainid ++ "\n"),
       .Printf ("git-date: " ++ W.gitDate ++ "\n"),
       .Printf ("git-commit: " ++ W.gitCommit ++ "\n")]
    let (first, ferr) := ParseInt (ctx.Args.getD 0 "")
    let (last, lerr) := ParseInt (ctx.Args.getD 1 "")
    if ferr.isSome || lerr.isSome then
      (some (.errorf
        "substate-cli replay: error in parsing parameters: block number not an integer"),
        trace)
    else if decide (first < 0) || decide (last < 0) then
      (some (.errorf "substate-cli replay: error: block number must be greater than 0"),
        trace)
    else if first > last then
      (some (.errorf
        "substate-cli replay: error: first block has larger number than last block"),
        trace)
    else
      let trace := trace ++ [.SetSubstateFlags, .OpenSubstateDBReadOnly]
      let profile_file_name := ctx.cpuprofile
      let (createErr, trace, deferred) : Option GoError × List Event × List Event :=
        if profile_file_name ≠ "" then
          match W.Create profile_file_name with
          | some err => (some err, trace ++ [.Create profile_file_name], [.CloseSubstateDB])
          | none =>
            (none, trace ++ [.Create profile_file_name, .StartCPUProfile],
              [.StopCPUProfile, .CloseSubstateDB])
        else (none, trace, [.CloseSubstateDB])
      match createErr with
      | some err => (some err, trace ++ deferred)
      | none =>
        let trace := trace ++
          [.resetVmDuration,
           .NewSubstateTaskPool "substate-cli replay" (toUint64 first) (toUint64 last),
           .Execute]
        let err := W.Execute "substate-cli replay" (toUint64 first) (toUint64 last)
        let trace := trace ++
          [.Printf ("substate-cli replay: net VM time: " ++ W.vmDuration ++ "\n")]
        let trace := if ctx.profilingOpcode then trace ++ [.PrintStatistics] else trace
        let trace :=
          if ctx.interpreter.endsWith "-stats" then
            trace ++ [.PrintCollectedInstructionStatistics]
          else trace
        (err, trace ++ deferred)

/-- The function `getStorageFlatDataAction`. -/
def getStorageFlatDataAction (W : World) (ctx : Context) : Option GoError × List Event :=
  if ctx.Args.length ≠ 2 then
    (some (.errorf "substate-cli storage command requires exactly 2 arguments"), [])
  else
    let trace : List Event :=
      [.Printf ("chain-id: " ++ toString ctx.chainid ++ "\n"),
       .Printf ("git-date: " ++ W.gitDate ++ "\n"),
       .Printf ("git-commit: " ++ W.gitCommit ++ "\n")]
    let (first, ferr) := ParseInt (ctx.Args.getD 0 "")
    let (last, lerr) := ParseInt (ctx.Args.getD 1 "")
    if ferr.isSome || lerr.isSome then
      (some (.errorf
        "substate-cli storage-flat: error in parsing parameters: block number not an integer"),
        trace)
    else if decide (first < 0) || decide (last < 0) then
      (some (.errorf
        "substate-cli storage-flat: error: block number must be greater than 0"),
        trace)
    else if first > last then
      (some (.errorf
        "substate-cli storage-flat: error: first block has larger number than last block"),
        trace)
    else
      let trace := trace ++
        [.SetSubstateFlags, .OpenSubstateDBReadOnly,
         .NewSubstateTaskPool "substate-cli storage-flat" (toUint64 first) (toUint64 last),
         .Execute]
      let err := W.Execute "substate-cli storage-flat" (toUint64 first) (toUint64 last)
      (err, trace ++ [.CloseSubstateDB])

/-! ## Notions used to state the properties -/

/-- The block number `num` has no entry in `env.BlockHashes` (a nil map has no entries). -/
def missingHash (env : SubstateEnv) (num : Nat) : Bool :=
  match env.BlockHashes with
  | none => true
  | some blockHashes => (blockHashes.lookup num).isNone

/-- The error that `getHash` stores when asked for a block number without an entry. -/
def hashErrorFor (env : SubstateEnv) (num : Nat) : GoError :=
  match env.BlockHashes with
  | none => .errorf ("getHash(" ++ toString num ++ ") invoked, no blockhashes provided")
  | some _ =>
    .errorf ("getHash(" ++ toString num ++ ") invoked, blockhash for that block not provided")

/-- The recording is skipped by the filter at the head of `replayTask`. -/
def skipped (config : ReplayConfig) (recording : Substate) : Bool :=
  config.only_successful && recording.Result.Status != ReceiptStatusSuccessful

/-- The text `part` occurs in `s`. -/
def Occurs (part s : String) : Prop := ∃ pre post : String, s = pre ++ part ++ post

/-- The three strings that the `printIfDifferent` family prints for a difference: the label
line, the wanted value and the value at hand, already rendered. -/
def differentBlock (label want have_ : String) : List String :=
  ["  Different " ++ label ++ ":\n", "    want: " ++ want ++ "\n", "    have: " ++ have_ ++ "\n"]

/-- The per-topic part of a log diff: for every index, the block for the two topics there. -/
def topicDiffs (F : Fmt) (label : String) (want have_ : List Hash) : List String :=
  (List.range want.length).flatMap (fun i =>
    match want[i]?, have_[i]? with
    | some w, some h =>
      if w ≠ h then
        differentBlock (label ++ ".Topics[" ++ toString i ++ "]") (F.hash w) (F.hash h)
      else []
    | _, _ => [])

/-- The per-log part of a receipt diff: for every index, the diff of the two logs there. -/
def logDiffs (F : Fmt) (want have_ : List Log) : List String :=
  (List.range want.length).flatMap (fun i =>
    match want[i]?, have_[i]? with
    | some w, some h => printLogDiffSummary F ("log[" ++ toString i ++ "]") w h
    | _, _ => [])

/-- The entries of `m` whose key has no entry in `other`: the map difference `m \ other`. -/
def GoMap.minus {K V W : Type} [BEq K] (m : GoMap K V) (other : GoMap K W) : GoMap K V :=
  m.filter (fun kv => (other.lookup kv.1).isNone)

/-- The entries of `m` whose key has an entry in `other` as well. -/
def GoMap.common {K V W : Type} [BEq K] (m : GoMap K V) (other : GoMap K W) : GoMap K V :=
  m.filter (fun kv => (other.lookup kv.1).isSome)

/-- The block for the storage value under the key of the entry `kv` of the account at hand,
printed when the wanted account has a different value under that key. -/
def storageValueDiff (F : Fmt) (label : String) (want : GoMap Hash Hash) (kv : Hash × Hash) :
    List String :=
  match want.lookup kv.1 with
  | some should =>
    if should ≠ kv.2 then
      differentBlock (label ++ ".Storage[" ++ F.hash kv.1 ++ "]") (F.hash should) (F.hash kv.2)
    else []
  | none => []

/-- The account diff for the entry `kv` of the allocation at hand against the account that
the wanted allocation has under the same address. -/
def accountDiff (F : Fmt) (ro : RangeOrder) (want : SubstateAlloc)
    (kv : Address × SubstateAccount) : List String :=
  match want.lookup kv.1 with
  | some should => printAccountDiffSummary F ro ("key=" ++ F.address kv.1 ++ ":") should kv.2
  | none => []

/-- The number that the decimal digits `cs` denote when read after the value `acc`. -/
def decimalValue (acc : Nat) (cs : List Char) : Nat :=
  cs.foldl (fun a c => a * 10 + (c.toNat - 48)) acc

/-- The block range that an argument list denotes when it passes the validation: there are
exactly two arguments, `ParseInt` reads both without error, and the values `first` and
`last` satisfy `0 ≤ first ≤ last`. -/
def acceptedRange (args : List String) : Option (Int × Int) :=
  match args with
  | [a, b] =>
    if (ParseInt a).2 = none ∧ (ParseInt b).2 = none ∧ 0 ≤ (ParseInt a).1 ∧
        (ParseInt a).1 ≤ (ParseInt b).1 then
      some ((ParseInt a).1, (ParseInt b).1)
    else none
  | _ => none

/-! ## Concrete inputs -/

/-- A rendering of the values whose Go formatting is defined elsewhere: decimal. -/
def decimalFmt : Fmt :=
  { address := fun a => toString a
    hash := fun h => toString h
    bloom := fun b => toString b
    bytes := fun b => toString b
    bigInt := fun i => match i with
      | none => "<nil>"
      | some x => toString x }

/-- Collaborators for the examples: the interpreter returns `run` whatever it is given, every
block is past Byzantium, the derived address is never zero, the bloom is constant and the
equality tests are structural. -/
def sampleExternal (run : Execution) : External :=
  { ApplyMessage := fun _ _ _ => run
    IsByzantium := fun _ => true
    IsEIP158 := fun _ => true
    CreateAddress := fun sender nonce => sender + nonce + 1
    LogsBloom := fun _ => 0
    ResultEqual := fun x y => decide (x = y)
    AllocEqual := fun x y => decide (x = y)
    fmt := decimalFmt
    order := RangeOrder.listed }

/-- A plain call of gas 21000 from account 1 to account 2. -/
def sampleMessage : SubstateMessage :=
  { Nonce := 0, CheckNonce := true, GasPrice := some 1, Gas := 21000, From := 1,
    To := some 2, Value := some 0, Data := [] }

/-- A block environment that knows the hash of block 3 only. -/
def sampleEnv : SubstateEnv :=
  { Coinbase := 9, Difficulty := some 1, GasLimit := 30000, Number := 10, Timestamp := 100,
    BlockHashes := some [(3, 33)], BaseFee := none }

/-- The receipt of a successful call that used 21000 gas and logged nothing. -/
def sampleResult : SubstateResult :=
  { Status := ReceiptStatusSuccessful, Bloom := 0, Logs := [], ContractAddress := 0,
    GasUsed := 21000 }

/-- A recording of `sampleMessage` in `sampleEnv` with the given receipt. -/
def sampleRecording (result : SubstateResult) : Substate :=
  { InputAlloc := [], Env := sampleEnv, Message := sampleMessage, OutputAlloc := [],
    Result := result }

/-- An execution that asks for the block hashes in `calls` and then succeeds with 21000 gas
used, no logs and an empty post-allocation. -/
def sampleRun (calls : List Nat) : Execution :=
  { hashCalls := calls, msgResult := { UsedGas := 21000, Err := none }, err := none,
    logs := [], postAlloc := [] }

/-- The configuration with no flag set. -/
def sampleConfig : ReplayConfig :=
  { vm_impl := "", only_successful := false, use_in_memory_db := false }

/-- A contract creation sent by account 1 with nonce 4. -/
def creationMessage : SubstateMessage := { sampleMessage with To := none, From := 1, Nonce := 4 }

/-- An execution that the interpreter reports as reverted, with 53000 gas used. -/
def revertedRun : Execution :=
  { hashCalls := [], msgResult := { UsedGas := 53000, Err := some "execution reverted" },
    err := none, logs := [], postAlloc := [] }

/-- An account with nonce 1, balance 10, no code and two storage entries. -/
def sampleAccount : SubstateAccount :=
  { Nonce := 1, Balance := some 10, Code := [], Storage := [(1, 11), (2, 22)] }

/-- An allocation with `sampleAccount` under the addresses 1 and 2. -/
def twoAccounts : SubstateAlloc := [(1, sampleAccount), (2, sampleAccount)]

/-- A world in which no file creation and no pool execution fails. -/
def sampleWorld : World :=
  { gitDate := "", gitCommit := "", Create := fun _ => none, Execute := fun _ _ _ => none,
    vmDuration := "0s" }

/-- A command line with the given arguments and no flag set. -/
def sampleContext (args : List String) : Context :=
  { Args := args, chainid := 250, profilingCall := false, profilingOpcode := false,
    cpuprofile := "", interpreter := "", onlySuccessful := false, faststatedb := false }

/-! ## The block-hash callback -/

theorem getHash_of_missing (env : SubstateEnv) (e : Option GoError) (num : Nat)
    (h : missingHash env num = true) : (getHash env e num).2 = some (hashErrorFor env num) := by
  unfold missingHash at h
  unfold getHash hashErrorFor
  cases hb : env.BlockHashes with
  | none => simp
  | some m =>
    rw [hb] at h
    cases hl : List.lookup num m with
    | none => simp [hl]
    | some v => simp [hl] at h

theorem getHash_of_present (env : SubstateEnv) (e : Option GoError) (num : Nat)
    (h : missingHash env num = false) : (getHash env e num).2 = e := by
  unfold missingHash at h
  unfold getHash
  cases hb : env.BlockHashes with
  | none => simp [hb] at h
  | some m =>
    rw [hb] at h
    cases hl : List.lookup num m with
    | none => simp [hl] at h
    | some v => simp [hl]

/-- After a sequence of calls the stored error is the one of the last call that missed, and
the initial value when no call missed. -/
theorem hashError_fold (env : SubstateEnv) (calls : List Nat) (init : Option GoError) :
    calls.foldl (fun hashError num => (getHash env hashError num).2) init =
      match (calls.filter (missingHash env)).getLast? with
      | none => init
      | some n => some (hashErrorFor env n) := by
  induction calls using List.reverseRecOn generalizing init with
  | nil => simp
  | append_singleton cs c ih =>
    rw [List.foldl_append, ih]
    cases hc : missingHash env c with
    | true =>
      simp [List.filter_append, hc, List.getLast?_append, getHash_of_missing env _ c hc]
    | false =>
      simp [List.filter_append, hc, getHash_of_present env _ c hc]

theorem hashErrorFor_ne_inconsistentOutput (env : SubstateEnv) (num : Nat) :
    hashErrorFor env num ≠ inconsistentOutput := by
  unfold hashErrorFor inconsistentOutput
  cases env.BlockHashes <;>
  · intro h
    have h2 := congrArg String.data (GoError.errorf.inj h)
    simp [String.data_append] at h2

theorem hashErrorFor_names (env : SubstateEnv) (num : Nat) :
    Occurs (toString num) (hashErrorFor env num).Error := by
  unfold hashErrorFor Occurs
  cases env.BlockHashes with
  | none => exact ⟨"getHash(", ") invoked, no blockhashes provided", by simp [GoError.Error, String.append_assoc]⟩
  | some m => exact ⟨"getHash(", ") invoked, blockhash for that block not provided", by simp [GoError.Error, String.append_assoc]⟩

/-! ## The replay task: filter, comparison and engine errors -/

/-- C4: a recording whose recorded status is Failed is skipped without any execution when
`only_successful` is set (nil is returned and nothing at all is done), and is executed when
the flag is not set (the state database is built and the interpreter is invoked). -/
theorem replayTask_only_successful_filter (X : External) (config : ReplayConfig)
    (block : Nat) (tx : Int) (recording : Substate)
    (hstatus : recording.Result.Status = ReceiptStatusFailed) :
    (config.only_successful = true →
      replayTask X config block tx recording = (none, [])) ∧
    (config.only_successful = false →
      ∃ rest, (replayTask X config block tx recording).2 =
        [if config.use_in_memory_db then Event.MakeInMemoryStateDB
          else Event.MakeOffTheChainStateDB,
         Event.Prepare tx, Event.Snapshot, Event.ApplyMessage] ++ rest) := by
  constructor
  · intro h
    simp [replayTask, h, hstatus, ReceiptStatusFailed, ReceiptStatusSuccessful]
  · intro h
    simp only [replayTask, h, Bool.false_and, Bool.false_eq_true, if_false]
    split
    · exact ⟨_, List.append_assoc _ _ _⟩
    · split
      · exact ⟨_, rfl⟩
      · split <;> split <;> split <;> simp [List.append_assoc]

/-- A failed recording replayed with `only_successful` set. -/
theorem replayTask_only_successful_filter_witness :
    replayTask (sampleExternal (sampleRun []))
        { sampleConfig with only_successful := true } 7 0
        (sampleRecording { sampleResult with Status := ReceiptStatusFailed }) = (none, []) :=
  (replayTask_only_successful_filter (sampleExternal (sampleRun []))
    { sampleConfig with only_successful := true } 7 0
    (sampleRecording { sampleResult with Status := ReceiptStatusFailed }) rfl).1 rfl

/-- What `replayTask` does once the message has run without an interpreter error and without
a stored block-hash error. -/
theorem replayTask_of_completed (X : External) (config : ReplayConfig) (block : Nat)
    (tx : Int) (recording : Substate)
    (hfilter : skipped config recording = false)
    (herr : (X.ApplyMessage config tx recording).err = none)
    (hhash : ∀ num ∈ (X.ApplyMessage config tx recording).hashCalls,
      missingHash recording.Env num = false) :
    replayTask X config block tx recording =
      (if X.ResultEqual recording.Result
            (evmResult X recording.Message (X.ApplyMessage config tx recording)) = true ∧
          X.AllocEqual recording.OutputAlloc (X.ApplyMessage config tx recording).postAlloc
            = true
        then none else some inconsistentOutput,
       [if config.use_in_memory_db then Event.MakeInMemoryStateDB
          else Event.MakeOffTheChainStateDB,
         Event.Prepare tx, Event.Snapshot, Event.ApplyMessage] ++
       (X.ApplyMessage config tx recording).hashCalls.map Event.GetHash ++
       [if X.IsByzantium recording.Env.Number then Event.Finalise true
         else Event.IntermediateRoot (X.IsEIP158 recording.Env.Number)] ++
       [Event.GetLogs, Event.GetSubstatePostAlloc, Event.ResultEqual, Event.AllocEqual] ++
       (if X.ResultEqual recording.Result
            (evmResult X recording.Message (X.ApplyMessage config tx recording)) = true ∧
          X.AllocEqual recording.OutputAlloc (X.ApplyMessage config tx recording).postAlloc
            = true
        then []
        else
          [Event.Printf
            ("block: " ++ toString block ++ " Transaction: " ++ toString tx ++ "\n")] ++
          (if X.ResultEqual recording.Result
              (evmResult X recording.Message (X.ApplyMessage config tx recording)) = true
            then []
            else
              [Event.Printf "inconsistent output: result\n", Event.printResultDiffSummary] ++
              (printResultDiffSummary X.fmt recording.Result
                (evmResult X recording.Message
                  (X.ApplyMessage config tx recording))).map Event.Printf) ++
          (if X.AllocEqual recording.OutputAlloc
              (X.ApplyMessage config tx recording).postAlloc = true
            then []
            else
              [Event.Printf "inconsistent output: alloc\n",
                Event.printAllocationDiffSummary] ++
              (printAllocationDiffSummary X.fmt X.order recording.OutputAlloc
                (X.ApplyMessage config tx recording).postAlloc).map Event.Printf))) := by
  have hfold : (X.ApplyMessage config tx recording).hashCalls.foldl
      (fun hashError num => (getHash recording.Env hashError num).2) none = none := by
    rw [hashError_fold]
    have : (X.ApplyMessage config tx recording).hashCalls.filter
        (missingHash recording.Env) = [] := by
      rw [List.filter_eq_nil_iff]
      intro a ha
      simp [hhash a ha]
    rw [this]
    rfl
  unfold skipped at hfilter
  simp only [replayTask, hfilter, Bool.false_eq_true, if_false, herr, hfold]
  cases hr : X.ResultEqual recording.Result
      (evmResult X recording.Message (X.ApplyMessage config tx recording)) <;>
  cases ha : X.AllocEqual recording.OutputAlloc
      (X.ApplyMessage config tx recording).postAlloc <;>
  simp [List.append_assoc]

/-- C1: for a recording that is not skipped by the filter and whose execution ends with no
interpreter error and with every requested block hash found, `replayTask` returns nil
exactly when the recorded receipt equals the replayed one and the recorded output
allocation equals the replayed one; otherwise it returns the error "inconsistent output".
The receipt diff printer is invoked exactly when the receipts are unequal and the allocation
diff printer exactly when the allocations are unequal. -/
theorem replayTask_success_iff_outputs_equal (X : External) (config : ReplayConfig)
    (block : Nat) (tx : Int) (recording : Substate)
    (hfilter : skipped config recording = false)
    (herr : (X.ApplyMessage config tx recording).err = none)
    (hhash : ∀ num ∈ (X.ApplyMessage config tx recording).hashCalls,
      missingHash recording.Env num = false) :
    ((replayTask X config block tx recording).1 = none ↔
      (X.ResultEqual recording.Result
          (evmResult X recording.Message (X.ApplyMessage config tx recording)) = true ∧
        X.AllocEqual recording.OutputAlloc
          (X.ApplyMessage config tx recording).postAlloc = true)) ∧
    ((replayTask X config block tx recording).1 ≠ none →
      (replayTask X config block tx recording).1 =
        some (GoError.errorf "inconsistent output")) ∧
    (Event.printResultDiffSummary ∈ (replayTask X config block tx recording).2 ↔
      X.ResultEqual recording.Result
        (evmResult X recording.Message (X.ApplyMessage config tx recording)) = false) ∧
    (Event.printAllocationDiffSummary ∈ (replayTask X config block tx recording).2 ↔
      X.AllocEqual recording.OutputAlloc
        (X.ApplyMessage config tx recording).postAlloc = false) := by
  rw [replayTask_of_completed X config block tx recording hfilter herr hhash]
  cases hr : X.ResultEqual recording.Result
      (evmResult X recording.Message (X.ApplyMessage config tx recording)) <;>
  cases ha : X.AllocEqual recording.OutputAlloc
      (X.ApplyMessage config tx recording).postAlloc <;>
  cases hm : config.use_in_memory_db <;>
  cases hb : X.IsByzantium recording.Env.Number <;>
  simp [inconsistentOutput]

/-- A recording that matches its replay, with one block-hash lookup that hits. -/
theorem replayTask_success_iff_outputs_equal_witness :
    (replayTask (sampleExternal (sampleRun [3])) sampleConfig 7 0
      (sampleRecording sampleResult)).1 = none :=
  (replayTask_success_iff_outputs_equal (sampleExternal (sampleRun [3])) sampleConfig 7 0
    (sampleRecording sampleResult) (by decide) (by rfl) (by decide)).1.2
    ⟨by decide, by decide⟩

/-- What `replayTask` does when the interpreter returns an error. -/
theorem replayTask_of_interpreter_error (X : External) (config : ReplayConfig) (block : Nat)
    (tx : Int) (recording : Substate) (err : String)
    (hfilter : skipped config recording = false)
    (herr : (X.ApplyMessage config tx recording).err = some err) :
    replayTask X config block tx recording =
      (some (GoError.external err),
       [if config.use_in_memory_db then Event.MakeInMemoryStateDB
          else Event.MakeOffTheChainStateDB,
         Event.Prepare tx, Event.Snapshot, Event.ApplyMessage] ++
       (X.ApplyMessage config tx recording).hashCalls.map Event.GetHash ++
       [Event.RevertToSnapshot]) := by
  unfold skipped at hfilter
  simp only [replayTask, hfilter, Bool.false_eq_true, if_false, herr]

/-- What `replayTask` does when the interpreter returns no error and the last block number
that the callback was asked for without finding it is `n`. -/
theorem replayTask_of_hash_error (X : External) (config : ReplayConfig) (block : Nat)
    (tx : Int) (recording : Substate) (n : Nat)
    (hfilter : skipped config recording = false)
    (herr : (X.ApplyMessage config tx recording).err = none)
    (hlast : ((X.ApplyMessage config tx recording).hashCalls.filter
      (missingHash recording.Env)).getLast? = some n) :
    replayTask X config block tx recording =
      (some (hashErrorFor recording.Env n),
       [if config.use_in_memory_db then Event.MakeInMemoryStateDB
          else Event.MakeOffTheChainStateDB,
         Event.Prepare tx, Event.Snapshot, Event.ApplyMessage] ++
       (X.ApplyMessage config tx recording).hashCalls.map Event.GetHash) := by
  have hfold : (X.ApplyMessage config tx recording).hashCalls.foldl
      (fun hashError num => (getHash recording.Env hashError num).2) none =
        some (hashErrorFor recording.Env n) := by
    rw [hashError_fold, hlast]
  unfold skipped at hfilter
  simp only [replayTask, hfilter, Bool.false_eq_true, if_false, herr, hfold]

/-- A list with a member has a last element, and that element is a member. -/
theorem exists_getLast_of_mem {α : Type} (l : List α) (a : α) (h : a ∈ l) :
    ∃ b, l.getLast? = some b ∧ b ∈ l := by
  have hne : l ≠ [] := List.ne_nil_of_mem h
  exact ⟨l.getLast hne, List.getLast?_eq_getLast l hne, List.getLast_mem hne⟩

/-- C2: when a recording is executed and the interpreter returns an error, or the block-hash
callback is invoked for a block number that has no entry in the recorded block hashes,
`replayTask` returns an error that is not the mismatch error, and it neither settles the
state (`Finalise`, `IntermediateRoot`), nor compares receipts or allocations, nor calls a
diff printer, nor prints anything. When the interpreter returns no error and every lookup
that misses is for the same block number `n`, the message of the returned error contains
`n`. -/
theorem replayTask_engine_error (X : External) (config : ReplayConfig)
    (block : Nat) (tx : Int) (recording : Substate)
    (hfilter : skipped config recording = false)
    (h : (X.ApplyMessage config tx recording).err ≠ none ∨
      ∃ num ∈ (X.ApplyMessage config tx recording).hashCalls,
        missingHash recording.Env num = true) :
    (∃ e, (replayTask X config block tx recording).1 = some e ∧
      e ≠ GoError.errorf "inconsistent output" ∧
      ((X.ApplyMessage config tx recording).err = none →
        ∀ n, (∀ num ∈ (X.ApplyMessage config tx recording).hashCalls,
            missingHash recording.Env num = true → num = n) →
          Occurs (toString n) e.Error)) ∧
    (∀ flag, Event.Finalise flag ∉ (replayTask X config block tx recording).2) ∧
    (∀ flag, Event.IntermediateRoot flag ∉ (replayTask X config block tx recording).2) ∧
    Event.GetSubstatePostAlloc ∉ (replayTask X config block tx recording).2 ∧
    Event.ResultEqual ∉ (replayTask X config block tx recording).2 ∧
    Event.AllocEqual ∉ (replayTask X config block tx recording).2 ∧
    Event.printResultDiffSummary ∉ (replayTask X config block tx recording).2 ∧
    Event.printAllocationDiffSummary ∉ (replayTask X config block tx recording).2 ∧
    (∀ s, Event.Printf s ∉ (replayTask X config block tx recording).2) := by
  cases herr : (X.ApplyMessage config tx recording).err with
  | some err =>
    rw [replayTask_of_interpreter_error X config block tx recording err hfilter herr]
    refine ⟨⟨GoError.external err, rfl, by simp, by simp⟩, ?_⟩
    cases config.use_in_memory_db <;> simp
  | none =>
    rw [herr] at h
    obtain ⟨num, hmem, hmiss⟩ : ∃ num ∈ (X.ApplyMessage config tx recording).hashCalls,
        missingHash recording.Env num = true := by
      rcases h with h | h
      · exact absurd rfl h
      · exact h
    obtain ⟨n, hlast, hn⟩ := exists_getLast_of_mem
      ((X.ApplyMessage config tx recording).hashCalls.filter (missingHash recording.Env)) num
      (List.mem_filter.mpr ⟨hmem, hmiss⟩)
    rw [replayTask_of_hash_error X config block tx recording n hfilter herr hlast]
    refine ⟨⟨hashErrorFor recording.Env n, rfl, ?_, ?_⟩, ?_⟩
    · exact hashErrorFor_ne_inconsistentOutput recording.Env n
    · intro _ m hm
      rw [← hm n (List.mem_filter.mp hn).1 (List.mem_filter.mp hn).2]
      exact hashErrorFor_names recording.Env n
    · cases config.use_in_memory_db <;> simp

/-- A replay whose second block-hash lookup misses. -/
theorem replayTask_engine_error_witness :
    ∃ e, (replayTask (sampleExternal (sampleRun [3, 5])) sampleConfig 7 0
        (sampleRecording sampleResult)).1 = some e ∧
      e ≠ GoError.errorf "inconsistent output" :=
  have h := (replayTask_engine_error (sampleExternal (sampleRun [3, 5])) sampleConfig 7 0
    (sampleRecording sampleResult) (by decide) (Or.inr ⟨5, by decide, by decide⟩)).1
  ⟨h.choose, h.choose_spec.1, h.choose_spec.2.1⟩

/-- C3, as stated, fails: the callback is asked for blocks 5 and 7, neither of which has an
entry; the first lookup that misses is the one for block 5, yet the error returned is the
one for block 7. -/
theorem replayTask_hash_error_not_first :
    (sampleRun [5, 7]).hashCalls.find? (missingHash sampleEnv) = some 5 ∧
    (replayTask (sampleExternal (sampleRun [5, 7])) sampleConfig 7 0
      (sampleRecording sampleResult)).1 =
        some (GoError.errorf "getHash(7) invoked, blockhash for that block not provided") ∧
    hashErrorFor sampleEnv 5 =
      GoError.errorf "getHash(5) invoked, blockhash for that block not provided" := by
  decide

/-- C3, amended: when a message execution ends without interpreter error and at least one
block-hash lookup missed, the error that `replayTask` returns is the one stored by the last
lookup that missed, in call order, and its message names that block number. -/
theorem replayTask_returns_last_hash_error (X : External) (config : ReplayConfig)
    (block : Nat) (tx : Int) (recording : Substate) (n : Nat)
    (hfilter : skipped config recording = false)
    (herr : (X.ApplyMessage config tx recording).err = none)
    (hlast : ((X.ApplyMessage config tx recording).hashCalls.filter
      (missingHash recording.Env)).getLast? = some n) :
    (replayTask X config block tx recording).1 = some (hashErrorFor recording.Env n) ∧
    Occurs (toString n) (hashErrorFor recording.Env n).Error := by
  rw [replayTask_of_hash_error X config block tx recording n hfilter herr hlast]
  exact ⟨rfl, hashErrorFor_names recording.Env n⟩

/-- A replay with lookups for blocks 5, 3, 7 and 3, of which 5 and 7 miss. -/
theorem replayTask_returns_last_hash_error_witness :
    (replayTask (sampleExternal (sampleRun [5, 3, 7, 3])) sampleConfig 7 0
      (sampleRecording sampleResult)).1 = some (hashErrorFor sampleEnv 7) :=
  (replayTask_returns_last_hash_error (sampleExternal (sampleRun [5, 3, 7, 3])) sampleConfig
    7 0 (sampleRecording sampleResult) 7 (by decide) (by rfl) (by decide)).1

/-- C8, as stated, fails: for a contract creation that the interpreter reports as failed,
the receipt has status Failed and still carries the derived contract address. -/
theorem evmResult_failed_creation_sets_contract_address :
    creationMessage.To = none ∧ revertedRun.msgResult.Failed = true ∧
    (evmResult (sampleExternal revertedRun) creationMessage revertedRun).Status =
      ReceiptStatusFailed ∧
    (evmResult (sampleExternal revertedRun) creationMessage revertedRun).ContractAddress =
      (sampleExternal revertedRun).CreateAddress 1 4 ∧
    (evmResult (sampleExternal revertedRun) creationMessage revertedRun).ContractAddress
      ≠ 0 := by
  decide

/-- C8, amended: the receipt that `replayTask` builds has its contract address set to the
address derived from sender and nonce if and only if the message is a contract creation
(no recipient), whether the interpreter reports the message as failed or not; for a message
with a recipient the contract address keeps its zero value. The status is Failed exactly
when the interpreter reports failure. -/
theorem evmResult_contract_address (X : External) (msg : SubstateMessage) (run : Execution) :
    (msg.To = none →
      (evmResult X msg run).ContractAddress = X.CreateAddress msg.From msg.Nonce) ∧
    (msg.To ≠ none → (evmResult X msg run).ContractAddress = 0) ∧
    ((evmResult X msg run).Status = ReceiptStatusFailed ↔ run.msgResult.Failed = true) := by
  refine ⟨?_, ?_, ?_⟩
  · intro h
    simp [evmResult, h]
  · intro h
    cases hto : msg.To with
    | none => exact absurd hto h
    | some recipient => simp [evmResult, hto]
  · cases hf : run.msgResult.Failed <;>
      simp [evmResult, hf, ReceiptStatusFailed, ReceiptStatusSuccessful]

/-- The receipt of the reverted creation sent by account 1 with nonce 4. -/
theorem evmResult_contract_address_witness :
    (evmResult (sampleExternal revertedRun) creationMessage revertedRun).ContractAddress =
      6 :=
  (evmResult_contract_address (sampleExternal revertedRun) creationMessage revertedRun).1 rfl

/-! ## The diff reporter: loops as concatenations -/

theorem foldl_append_flatMap {α β : Type} (f : α → List β) (l : List α) (init : List β) :
    l.foldl (fun out x => out ++ f x) init = init ++ l.flatMap f := by
  induction l generalizing init with
  | nil => simp
  | cons x xs ih => simp [List.foldl_cons, ih, List.flatMap_cons, List.append_assoc]

theorem flatMap_ite_singleton {α β : Type} (p : α → Bool) (g : α → β) (l : List α) :
    l.flatMap (fun x => if p x = true then [g x] else []) = (l.filter p).map g := by
  induction l with
  | nil => simp
  | cons x xs ih =>
    cases hp : p x <;> simp [List.flatMap_cons, List.filter_cons, hp, ih]

theorem printIfDifferent_fst {T : Type} [DecidableEq T] (v : T → String) (label : String)
    (want have_ : T) :
    (printIfDifferent v label want have_).1 =
      if want ≠ have_ then differentBlock label (v want) (v have_) else [] := by
  unfold printIfDifferent differentBlock
  split <;> rfl

theorem printIfDifferent_snd {T : Type} [DecidableEq T] (v : T → String) (label : String)
    (want have_ : T) :
    (printIfDifferent v label want have_).2 = decide (want ≠ have_) := by
  unfold printIfDifferent
  split <;> simp_all

theorem printIfDifferentBytes_fst (v : Bytes → String) (label : String) (want have_ : Bytes) :
    (printIfDifferentBytes v label want have_).1 =
      if want ≠ have_ then differentBlock label (v want) (v have_) else [] := by
  unfold printIfDifferentBytes differentBlock
  by_cases h : want = have_ <;> simp [h]

theorem printIfDifferentBigInt_fst (v : Option Int → String) (label : String)
    (want have_ : Option Int) :
    (printIfDifferentBigInt v label want have_).1 =
      if want ≠ have_ then differentBlock label (v want) (v have_) else [] := by
  unfold printIfDifferentBigInt differentBlock
  cases want with
  | none => cases have_ <;> simp
  | some w =>
    cases have_ with
    | none => simp
    | some h =>
      by_cases hwh : w = h
      · subst hwh
        simp [Cmp]
      · have hc : Cmp w h ≠ 0 := by
          unfold Cmp
          split
          · decide
          · split
            · decide
            · omega
        simp [hwh, hc]

theorem printLogDiffSummary_eq (F : Fmt) (label : String) (want have_ : Log) :
    printLogDiffSummary F label want have_ =
      (if want.Address ≠ have_.Address then
        differentBlock (label ++ ".address") (F.address want.Address) (F.address have_.Address)
       else []) ++
      (if want.Topics.length ≠ have_.Topics.length then
        differentBlock (label ++ ".Topics size") (fmtUint want.Topics.length)
          (fmtUint have_.Topics.length)
       else topicDiffs F label want.Topics have_.Topics) ++
      (if want.Data ≠ have_.Data then
        differentBlock (label ++ ".data") (F.bytes want.Data) (F.bytes have_.Data)
       else []) := by
  have hbody : (fun (out : List String) (i : Nat) =>
      match want.Topics[i]?, have_.Topics[i]? with
      | some w, some h =>
        out ++ (printIfDifferent F.hash (label ++ ".Topics[" ++ toString i ++ "]") w h).1
      | _, _ => out) =
      (fun out i => out ++
        (match want.Topics[i]?, have_.Topics[i]? with
        | some w, some h =>
          if w ≠ h then
            differentBlock (label ++ ".Topics[" ++ toString i ++ "]") (F.hash w) (F.hash h)
          else []
        | _, _ => [])) := by
    funext out i
    split <;> simp [printIfDifferent_fst]
  simp only [printLogDiffSummary, hbody, foldl_append_flatMap, topicDiffs]
  simp only [printIfDifferent_fst, printIfDifferent_snd, printIfDifferentBytes_fst]
  by_cases hlen : want.Topics.length = have_.Topics.length <;> simp [hlen, List.append_assoc]

theorem printResultDiffSummary_eq (F : Fmt) (want have_ : SubstateResult) :
    printResultDiffSummary F want have_ =
      (if want.Status ≠ have_.Status then
        differentBlock "status" (fmtUint want.Status) (fmtUint have_.Status)
       else []) ++
      (if want.ContractAddress ≠ have_.ContractAddress then
        differentBlock "contract address" (F.address want.ContractAddress)
          (F.address have_.ContractAddress)
       else []) ++
      (if want.GasUsed ≠ have_.GasUsed then
        differentBlock "gas usage" (fmtUint want.GasUsed) (fmtUint have_.GasUsed)
       else []) ++
      (if want.Bloom ≠ have_.Bloom then
        differentBlock "log bloom filter" (F.bloom want.Bloom) (F.bloom have_.Bloom)
       else []) ++
      (if want.Logs.length ≠ have_.Logs.length then
        differentBlock "log size" (fmtUint want.Logs.length) (fmtUint have_.Logs.length)
       else logDiffs F want.Logs have_.Logs) := by
  have hbody : (fun (out : List String) (i : Nat) =>
      match want.Logs[i]?, have_.Logs[i]? with
      | some w, some h => out ++ printLogDiffSummary F ("log[" ++ toString i ++ "]") w h
      | _, _ => out) =
      (fun out i => out ++
        (match want.Logs[i]?, have_.Logs[i]? with
        | some w, some h => printLogDiffSummary F ("log[" ++ toString i ++ "]") w h
        | _, _ => [])) := by
    funext out i
    split <;> simp
  simp only [printResultDiffSummary, hbody, foldl_append_flatMap, logDiffs]
  simp only [printIfDifferent_fst, printIfDifferent_snd]
  by_cases hlen : want.Logs.length = have_.Logs.length <;> simp [hlen, List.append_assoc]

theorem gas_line_not_mem_differentBlock (label want have_ : String)
    (hlabel : label ≠ "gas usage") :
    "  Different gas usage:\n" ∉ differentBlock label want have_ := by
  unfold differentBlock
  intro hmem
  simp only [List.mem_cons, List.mem_singleton, List.not_mem_nil, or_false] at hmem
  rcases hmem with h | h | h
  · apply hlabel
    have h2 := congrArg String.data h
    simp [String.data_append] at h2
    have h3 : label.data ++ [':', '\n'] = "gas usage".data ++ [':', '\n'] := by
      rw [← h2]; rfl
    exact String.ext (List.append_cancel_right h3)
  · have h2 := congrArg String.data h
    simp [String.data_append] at h2
  · have h2 := congrArg String.data h
    simp [String.data_append] at h2

theorem log_label_ne_gas_usage (index rest : String) :
    "log[" ++ index ++ "]" ++ rest ≠ "gas usage" := by
  intro h
  have h2 := congrArg String.data h
  simp [String.data_append] at h2

theorem gas_line_not_mem_printLogDiffSummary (F : Fmt) (index : String) (want have_ : Log) :
    "  Different gas usage:\n" ∉ printLogDiffSummary F ("log[" ++ index ++ "]") want have_ := by
  rw [printLogDiffSummary_eq]
  intro hmem
  simp only [List.mem_append] at hmem
  rcases hmem with (hmem | hmem) | hmem
  · split at hmem
    · exact gas_line_not_mem_differentBlock _ _ _ (log_label_ne_gas_usage _ _) hmem
    · simp at hmem
  · split at hmem
    · exact gas_line_not_mem_differentBlock _ _ _ (log_label_ne_gas_usage _ _) hmem
    · unfold topicDiffs at hmem
      rw [List.mem_flatMap] at hmem
      obtain ⟨i, _, hi⟩ := hmem
      split at hi
      · split at hi
        · refine gas_line_not_mem_differentBlock _ _ _ ?_ hi
          rw [String.append_assoc, String.append_assoc]
          exact log_label_ne_gas_usage _ _
        · simp at hi
      · simp at hi
  · split at hmem
    · exact gas_line_not_mem_differentBlock _ _ _ (log_label_ne_gas_usage _ _) hmem
    · simp at hmem

theorem gas_line_not_mem_logDiffs (F : Fmt) (want have_ : List Log) :
    "  Different gas usage:\n" ∉ logDiffs F want have_ := by
  unfold logDiffs
  intro hmem
  rw [List.mem_flatMap] at hmem
  obtain ⟨i, _, hi⟩ := hmem
  split at hi
  · exact gas_line_not_mem_printLogDiffSummary F _ _ _ hi
  · simp at hi

/-! ## The receipt diff -/

/-- C5, as stated, fails: for two receipts that differ in status and in gas used (and in
nothing else) the block for the status is followed by the block for the gas usage. -/
theorem printResultDiffSummary_status_and_gas :
    printResultDiffSummary decimalFmt sampleResult
        { sampleResult with Status := ReceiptStatusFailed, GasUsed := 30000 } =
      ["  Different status:\n", "    want: 1\n", "    have: 0\n",
       "  Different gas usage:\n", "    want: 21000\n", "    have: 30000\n"] := by
  decide

/-- C5, amended: for every pair of receipts, `printResultDiffSummary` prints a "Different"
block for every one of the fields status, contract address, gas used, bloom and number of
logs that differs, in exactly that order, and none for a field that is equal; when the
numbers of logs agree the per-log diffs follow. In particular the output is not empty when
one of the five fields differs. -/
theorem printResultDiffSummary_every_differing_field (F : Fmt) (want have_ : SubstateResult) :
    printResultDiffSummary F want have_ =
      (if want.Status ≠ have_.Status then
        differentBlock "status" (fmtUint want.Status) (fmtUint have_.Status)
       else []) ++
      (if want.ContractAddress ≠ have_.ContractAddress then
        differentBlock "contract address" (F.address want.ContractAddress)
          (F.address have_.ContractAddress)
       else []) ++
      (if want.GasUsed ≠ have_.GasUsed then
        differentBlock "gas usage" (fmtUint want.GasUsed) (fmtUint have_.GasUsed)
       else []) ++
      (if want.Bloom ≠ have_.Bloom then
        differentBlock "log bloom filter" (F.bloom want.Bloom) (F.bloom have_.Bloom)
       else []) ++
      (if want.Logs.length ≠ have_.Logs.length then
        differentBlock "log size" (fmtUint want.Logs.length) (fmtUint have_.Logs.length)
       else logDiffs F want.Logs have_.Logs) ∧
    ((want.Status ≠ have_.Status ∨ want.ContractAddress ≠ have_.ContractAddress ∨
        want.GasUsed ≠ have_.GasUsed ∨ want.Bloom ≠ have_.Bloom ∨
        want.Logs.length ≠ have_.Logs.length) →
      printResultDiffSummary F want have_ ≠ []) := by
  refine ⟨printResultDiffSummary_eq F want have_, ?_⟩
  intro hdiff
  rw [printResultDiffSummary_eq]
  rcases hdiff with h | h | h | h | h <;> simp [h, differentBlock]

/-- Two receipts that differ in the bloom only. -/
theorem printResultDiffSummary_every_differing_field_witness :
    printResultDiffSummary decimalFmt sampleResult { sampleResult with Bloom := 5 } ≠ [] :=
  (printResultDiffSummary_every_differing_field decimalFmt sampleResult
    { sampleResult with Bloom := 5 }).2 (by decide)

/-- C7: when the recorded and the replayed gas used differ, the output of
`printResultDiffSummary` contains, one after the other, the strings "Different gas usage:",
"want: " with the gas used of its first argument and "have: " with the gas used of its
second argument (each with its indentation and line end); when they are equal the string "Different gas usage:" is not printed. In
`replayTask` the first argument is the recorded receipt and the second the replayed one, so
a replay that completes with unequal receipts whose gas used differ prints these three
strings with the recorded value as wanted and the value reported by the interpreter as had. -/
theorem printResultDiffSummary_gas_usage (F : Fmt) (want have_ : SubstateResult)
    (X : External) (config : ReplayConfig) (block : Nat) (tx : Int) (recording : Substate) :
    (want.GasUsed ≠ have_.GasUsed →
      List.IsInfix
        ["  Different gas usage:\n",
         "    want: " ++ toString want.GasUsed ++ "\n",
         "    have: " ++ toString have_.GasUsed ++ "\n"]
        (printResultDiffSummary F want have_)) ∧
    (want.GasUsed = have_.GasUsed →
      "  Different gas usage:\n" ∉ printResultDiffSummary F want have_) ∧
    (skipped config recording = false →
      (X.ApplyMessage config tx recording).err = none →
      (∀ num ∈ (X.ApplyMessage config tx recording).hashCalls,
        missingHash recording.Env num = false) →
      X.ResultEqual recording.Result
        (evmResult X recording.Message (X.ApplyMessage config tx recording)) = false →
      recording.Result.GasUsed ≠ (X.ApplyMessage config tx recording).msgResult.UsedGas →
      List.IsInfix
        [Event.Printf "  Different gas usage:\n",
         Event.Printf ("    want: " ++ toString recording.Result.GasUsed ++ "\n"),
         Event.Printf ("    have: " ++
           toString (X.ApplyMessage config tx recording).msgResult.UsedGas ++ "\n")]
        (replayTask X config block tx recording).2) := by
  have hshape : ∀ (G : Fmt) (w h : SubstateResult), w.GasUsed ≠ h.GasUsed →
      List.IsInfix
        ["  Different gas usage:\n",
         "    want: " ++ toString w.GasUsed ++ "\n",
         "    have: " ++ toString h.GasUsed ++ "\n"]
        (printResultDiffSummary G w h) := by
    intro G w h hgas
    rw [printResultDiffSummary_eq]
    have hline : "  Different " ++ "gas usage" ++ ":\n" = "  Different gas usage:\n" := by
      decide
    simp only [hgas, ne_eq, not_false_eq_true, if_true, List.append_assoc]
    simp only [differentBlock, fmtUint, hline]
    exact (List.infix_append' _ _ _).trans (List.suffix_append _ _).isInfix
  refine ⟨hshape F want have_, ?_, ?_⟩
  · intro hgas
    rw [printResultDiffSummary_eq]
    intro hmem
    simp only [List.mem_append] at hmem
    rcases hmem with (((hmem | hmem) | hmem) | hmem) | hmem
    · split at hmem
      · exact gas_line_not_mem_differentBlock _ _ _ (by decide) hmem
      · simp at hmem
    · split at hmem
      · exact gas_line_not_mem_differentBlock _ _ _ (by decide) hmem
      · simp at hmem
    · simp [hgas] at hmem
    · split at hmem
      · exact gas_line_not_mem_differentBlock _ _ _ (by decide) hmem
      · simp at hmem
    · split at hmem
      · exact gas_line_not_mem_differentBlock _ _ _ (by decide) hmem
      · exact gas_line_not_mem_logDiffs F _ _ hmem
  · intro hfilter herr hhash hr hgas
    rw [replayTask_of_completed X config block tx recording hfilter herr hhash]
    have hin := (hshape X.fmt recording.Result
      (evmResult X recording.Message (X.ApplyMessage config tx recording)) hgas).map
      Event.Printf
    simp only [hr, Bool.false_eq_true, false_and, if_false]
    refine hin.trans ?_
    refine List.IsInfix.trans ?_ (List.suffix_append _ _).isInfix
    refine List.IsInfix.trans ?_ (List.infix_append _ _ _)
    exact (List.suffix_append _ _).isInfix

/-- A recorded receipt whose gas used is one more than the replayed one. -/
theorem printResultDiffSummary_gas_usage_witness :
    List.IsInfix ["  Different gas usage:\n", "    want: 21001\n", "    have: 21000\n"]
      (printResultDiffSummary decimalFmt { sampleResult with GasUsed := 21001 }
        sampleResult) :=
  (printResultDiffSummary_gas_usage decimalFmt { sampleResult with GasUsed := 21001 }
    sampleResult (sampleExternal (sampleRun [])) sampleConfig 7 0
    (sampleRecording sampleResult)).1 (by decide)

/-! ## The allocation diff -/

theorem printAccountDiffSummary_eq (F : Fmt) (ro : RangeOrder) (label : String)
    (want have_ : SubstateAccount) :
    printAccountDiffSummary F ro label want have_ =
      (if want.Nonce ≠ have_.Nonce then
        differentBlock (label ++ ".Nonce") (fmtUint want.Nonce) (fmtUint have_.Nonce)
       else []) ++
      (if want.Balance ≠ have_.Balance then
        differentBlock (label ++ ".Balance") (F.bigInt want.Balance) (F.bigInt have_.Balance)
       else []) ++
      (if want.Code ≠ have_.Code then
        differentBlock (label ++ ".Code") (F.bytes want.Code) (F.bytes have_.Code)
       else []) ++
      (if want.Storage.length ≠ have_.Storage.length then
        differentBlock ("len(" ++ label ++ ".Storage)") (fmtUint want.Storage.length)
          (fmtUint have_.Storage.length)
       else []) ++
      (GoMap.minus (ro.storage label 0 want.Storage) have_.Storage).map
        (fun kv => "    " ++ label ++ ".Storage misses key " ++ F.hash kv.1 ++ "\n") ++
      (GoMap.minus (ro.storage label 1 have_.Storage) want.Storage).map
        (fun kv => "    " ++ label ++ ".Storage has extra key " ++ F.hash kv.1 ++ "\n") ++
      (ro.storage label 2 have_.Storage).flatMap (storageValueDiff F label want.Storage) := by
  have h0 : (fun (out : List String) (kv : Hash × Hash) =>
      let present := (have_.Storage.lookup kv.1).isSome
      if (!present) = true then
        out ++ ["    " ++ label ++ ".Storage misses key " ++ F.hash kv.1 ++ "\n"]
      else out) =
      (fun out kv => out ++
        (if (fun kv : Hash × Hash => (have_.Storage.lookup kv.1).isNone) kv = true then
          [(fun kv : Hash × Hash =>
            "    " ++ label ++ ".Storage misses key " ++ F.hash kv.1 ++ "\n") kv]
         else [])) := by
    funext out kv
    cases hl : List.lookup kv.1 have_.Storage <;> simp [hl]
  have h1 : (fun (out : List String) (kv : Hash × Hash) =>
      let present := (want.Storage.lookup kv.1).isSome
      if (!present) = true then
        out ++ ["    " ++ label ++ ".Storage has extra key " ++ F.hash kv.1 ++ "\n"]
      else out) =
      (fun out kv => out ++
        (if (fun kv : Hash × Hash => (want.Storage.lookup kv.1).isNone) kv = true then
          [(fun kv : Hash × Hash =>
            "    " ++ label ++ ".Storage has extra key " ++ F.hash kv.1 ++ "\n") kv]
         else [])) := by
    funext out kv
    cases hl : List.lookup kv.1 want.Storage <;> simp [hl]
  have h2 : (fun (out : List String) (kv : Hash × Hash) =>
      match want.Storage.lookup kv.1 with
      | some should =>
        out ++ (printIfDifferent F.hash
          (label ++ ".Storage[" ++ F.hash kv.1 ++ "]") should kv.2).1
      | none => out) =
      (fun out kv => out ++ storageValueDiff F label want.Storage kv) := by
    funext out kv
    unfold storageValueDiff
    split <;> simp [printIfDifferent_fst]
  simp only [printAccountDiffSummary, h0, h1, h2, foldl_append_flatMap,
    flatMap_ite_singleton, GoMap.minus]
  simp only [printIfDifferent_fst, printIfDifferentBytes_fst, printIfDifferentBigInt_fst,
    List.append_assoc]

theorem printAllocationDiffSummary_eq (F : Fmt) (ro : RangeOrder) (want have_ : SubstateAlloc) :
    printAllocationDiffSummary F ro want have_ =
      (if want.length ≠ have_.length then
        differentBlock "substate alloc size" (fmtUint want.length) (fmtUint have_.length)
       else []) ++
      (GoMap.minus (ro.alloc 0 want) have_).map
        (fun kv => "    missing key=" ++ F.address kv.1 ++ "\n") ++
      (GoMap.minus (ro.alloc 1 have_) want).map
        (fun kv => "    extra key=" ++ F.address kv.1 ++ "\n") ++
      (ro.alloc 2 have_).flatMap (accountDiff F ro want) := by
  have h0 : (fun (out : List String) (kv : Address × SubstateAccount) =>
      let present := (have_.lookup kv.1).isSome
      if (!present) = true then out ++ ["    missing key=" ++ F.address kv.1 ++ "\n"]
      else out) =
      (fun out kv => out ++
        (if (fun kv : Address × SubstateAccount => (have_.lookup kv.1).isNone) kv = true then
          [(fun kv : Address × SubstateAccount =>
            "    missing key=" ++ F.address kv.1 ++ "\n") kv]
         else [])) := by
    funext out kv
    cases hl : List.lookup kv.1 have_ <;> simp [hl]
  have h1 : (fun (out : List String) (kv : Address × SubstateAccount) =>
      let present := (want.lookup kv.1).isSome
      if (!present) = true then out ++ ["    extra key=" ++ F.address kv.1 ++ "\n"]
      else out) =
      (fun out kv => out ++
        (if (fun kv : Address × SubstateAccount => (want.lookup kv.1).isNone) kv = true then
          [(fun kv : Address × SubstateAccount =>
            "    extra key=" ++ F.address kv.1 ++ "\n") kv]
         else [])) := by
    funext out kv
    cases hl : List.lookup kv.1 want <;> simp [hl]
  have h2 : (fun (out : List String) (kv : Address × SubstateAccount) =>
      match want.lookup kv.1 with
      | some should =>
        out ++ printAccountDiffSummary F ro ("key=" ++ F.address kv.1 ++ ":") should kv.2
      | none => out) =
      (fun out kv => out ++ accountDiff F ro want kv) := by
    funext out kv
    unfold accountDiff
    split <;> simp
  simp only [printAllocationDiffSummary, h0, h1, h2, foldl_append_flatMap,
    flatMap_ite_singleton, GoMap.minus]
  simp only [printIfDifferent_fst, List.append_assoc]

theorem listed_valid : RangeOrder.listed.Valid :=
  ⟨fun _ m => List.Perm.refl m, fun _ _ m => List.Perm.refl m⟩

theorem reversed_valid : RangeOrder.reversed.Valid :=
  ⟨fun _ m => List.reverse_perm m, fun _ _ m => List.reverse_perm m⟩

theorem flatMap_filter_of_nil {α β : Type} (p : α → Bool) (f : α → List β) (l : List α)
    (h : ∀ x, p x = false → f x = []) : l.flatMap f = (l.filter p).flatMap f := by
  induction l with
  | nil => simp
  | cons x xs ih =>
    cases hp : p x
    · simp [List.flatMap_cons, List.filter_cons, hp, h x hp, ih]
    · simp [List.flatMap_cons, List.filter_cons, hp, ih]

theorem storageValueDiff_of_absent (F : Fmt) (label : String) (want : GoMap Hash Hash)
    (kv : Hash × Hash) (h : (want.lookup kv.1).isSome = false) :
    storageValueDiff F label want kv = [] := by
  unfold storageValueDiff
  cases hl : List.lookup kv.1 want with
  | none => rfl
  | some v => simp [hl] at h

theorem accountDiff_of_absent (F : Fmt) (ro : RangeOrder) (want : SubstateAlloc)
    (kv : Address × SubstateAccount) (h : (want.lookup kv.1).isSome = false) :
    accountDiff F ro want kv = [] := by
  unfold accountDiff
  cases hl : List.lookup kv.1 want with
  | none => rfl
  | some v => simp [hl] at h

/-- C6: with every `range` statement visiting each entry of its map once,
`printAllocationDiffSummary` prints, in this order: the block for the size of the
allocations iff the sizes differ; one "missing key=" string for exactly the addresses of
`want \ have`; one "extra key=" string for exactly the addresses of `have \ want`; and the
account diff for exactly the addresses present in both. The account diff
(`printAccountDiffSummary`) prints, in this order, the blocks for nonce, balance, code and
storage size, each iff the two values differ, one string for exactly each storage key of
`want \ have`, one for exactly each storage key of `have \ want`, and for each storage key
present in both the block for the value iff the two values differ. -/
theorem printAllocationDiffSummary_sections (F : Fmt) (ro : RangeOrder)
    (want have_ : SubstateAlloc) (hro : ro.Valid) :
    (∃ missing extra common : SubstateAlloc,
      missing.Perm (GoMap.minus want have_) ∧
      extra.Perm (GoMap.minus have_ want) ∧
      common.Perm (GoMap.common have_ want) ∧
      printAllocationDiffSummary F ro want have_ =
        (if want.length ≠ have_.length then
          differentBlock "substate alloc size" (fmtUint want.length) (fmtUint have_.length)
         else []) ++
        missing.map (fun kv => "    missing key=" ++ F.address kv.1 ++ "\n") ++
        extra.map (fun kv => "    extra key=" ++ F.address kv.1 ++ "\n") ++
        common.flatMap (accountDiff F ro want)) ∧
    (∀ (label : String) (w h : SubstateAccount),
      ∃ misses extras commons : GoMap Hash Hash,
        misses.Perm (GoMap.minus w.Storage h.Storage) ∧
        extras.Perm (GoMap.minus h.Storage w.Storage) ∧
        commons.Perm (GoMap.common h.Storage w.Storage) ∧
        printAccountDiffSummary F ro label w h =
          (if w.Nonce ≠ h.Nonce then
            differentBlock (label ++ ".Nonce") (fmtUint w.Nonce) (fmtUint h.Nonce)
           else []) ++
          (if w.Balance ≠ h.Balance then
            differentBlock (label ++ ".Balance") (F.bigInt w.Balance) (F.bigInt h.Balance)
           else []) ++
          (if w.Code ≠ h.Code then
            differentBlock (label ++ ".Code") (F.bytes w.Code) (F.bytes h.Code)
           else []) ++
          (if w.Storage.length ≠ h.Storage.length then
            differentBlock ("len(" ++ label ++ ".Storage)") (fmtUint w.Storage.length)
              (fmtUint h.Storage.length)
           else []) ++
          misses.map
            (fun kv => "    " ++ label ++ ".Storage misses key " ++ F.hash kv.1 ++ "\n") ++
          extras.map
            (fun kv => "    " ++ label ++ ".Storage has extra key " ++ F.hash kv.1 ++ "\n") ++
          commons.flatMap (storageValueDiff F label w.Storage)) := by
  constructor
  · refine ⟨GoMap.minus (ro.alloc 0 want) have_, GoMap.minus (ro.alloc 1 have_) want,
      GoMap.common (ro.alloc 2 have_) want, (hro.1 0 want).filter _, (hro.1 1 have_).filter _,
      (hro.1 2 have_).filter _, ?_⟩
    rw [printAllocationDiffSummary_eq]
    congr 1
    exact flatMap_filter_of_nil _ _ _ (fun kv hkv => accountDiff_of_absent F ro want kv hkv)
  · intro label w h
    refine ⟨GoMap.minus (ro.storage label 0 w.Storage) h.Storage,
      GoMap.minus (ro.storage label 1 h.Storage) w.Storage,
      GoMap.common (ro.storage label 2 h.Storage) w.Storage,
      (hro.2 label 0 w.Storage).filter _, (hro.2 label 1 h.Storage).filter _,
      (hro.2 label 2 h.Storage).filter _, ?_⟩
    rw [printAccountDiffSummary_eq]
    congr 1
    exact flatMap_filter_of_nil _ _ _
      (fun kv hkv => storageValueDiff_of_absent F label w.Storage kv hkv)

/-- Two allocations that share the address 2, enumerated in reverse order. -/
theorem printAllocationDiffSummary_sections_witness :
    ∃ missing extra common : SubstateAlloc,
      missing.Perm (GoMap.minus twoAccounts [(2, sampleAccount), (3, sampleAccount)]) ∧
      extra.Perm (GoMap.minus [(2, sampleAccount), (3, sampleAccount)] twoAccounts) ∧
      common.Perm (GoMap.common [(2, sampleAccount), (3, sampleAccount)] twoAccounts) ∧
      printAllocationDiffSummary decimalFmt RangeOrder.reversed twoAccounts
          [(2, sampleAccount), (3, sampleAccount)] =
        (if twoAccounts.length ≠ [(2, sampleAccount), (3, sampleAccount)].length then
          differentBlock "substate alloc size" (fmtUint twoAccounts.length)
            (fmtUint [(2, sampleAccount), (3, sampleAccount)].length)
         else []) ++
        missing.map (fun kv => "    missing key=" ++ decimalFmt.address kv.1 ++ "\n") ++
        extra.map (fun kv => "    extra key=" ++ decimalFmt.address kv.1 ++ "\n") ++
        common.flatMap (accountDiff decimalFmt RangeOrder.reversed twoAccounts) :=
  (printAllocationDiffSummary_sections decimalFmt RangeOrder.reversed twoAccounts
    [(2, sampleAccount), (3, sampleAccount)] reversed_valid).1

theorem printAccountDiffSummary_perm (F : Fmt) (ro₁ ro₂ : RangeOrder) (label : String)
    (want have_ : SubstateAccount) (h₁ : ro₁.Valid) (h₂ : ro₂.Valid) :
    (printAccountDiffSummary F ro₁ label want have_).Perm
      (printAccountDiffSummary F ro₂ label want have_) := by
  have hp : ∀ i m, (ro₁.storage label i m).Perm (ro₂.storage label i m) :=
    fun i m => (h₁.2 label i m).trans (h₂.2 label i m).symm
  rw [printAccountDiffSummary_eq, printAccountDiffSummary_eq]
  refine List.Perm.append (List.Perm.append (List.Perm.append (List.Perm.refl _) ?_) ?_) ?_
  · exact ((hp 0 want.Storage).filter _).map _
  · exact ((hp 1 have_.Storage).filter _).map _
  · exact (hp 2 have_.Storage).flatMap_right _

theorem accountDiff_perm (F : Fmt) (ro₁ ro₂ : RangeOrder) (want : SubstateAlloc)
    (kv : Address × SubstateAccount) (h₁ : ro₁.Valid) (h₂ : ro₂.Valid) :
    (accountDiff F ro₁ want kv).Perm (accountDiff F ro₂ want kv) := by
  unfold accountDiff
  cases List.lookup kv.1 want with
  | none => exact List.Perm.refl _
  | some should => exact printAccountDiffSummary_perm F ro₁ ro₂ _ should kv.2 h₁ h₂

/-- C9, as stated, fails: two enumerations that both visit every entry once, one in the
listed order and one in the reverse order, print the two "missing key=" strings in different
orders for the same pair of allocations. -/
theorem printAllocationDiffSummary_order_dependent :
    RangeOrder.listed.Valid ∧ RangeOrder.reversed.Valid ∧
    printAllocationDiffSummary decimalFmt RangeOrder.listed twoAccounts [] =
      ["  Different substate alloc size:\n", "    want: 2\n", "    have: 0\n",
       "    missing key=1\n", "    missing key=2\n"] ∧
    printAllocationDiffSummary decimalFmt RangeOrder.reversed twoAccounts [] =
      ["  Different substate alloc size:\n", "    want: 2\n", "    have: 0\n",
       "    missing key=2\n", "    missing key=1\n"] ∧
    printAllocationDiffSummary decimalFmt RangeOrder.listed twoAccounts [] ≠
      printAllocationDiffSummary decimalFmt RangeOrder.reversed twoAccounts [] :=
  ⟨listed_valid, reversed_valid, by decide, by decide, by decide⟩

/-- C9, amended: for every pair of allocations and any two orders in which the entries of
the address maps and storage maps are enumerated, `printAllocationDiffSummary` prints the
same strings the same number of times, possibly in a different order; the same holds for
`printAccountDiffSummary`. -/
theorem printAllocationDiffSummary_perm (F : Fmt) (ro₁ ro₂ : RangeOrder)
    (want have_ : SubstateAlloc) (h₁ : ro₁.Valid) (h₂ : ro₂.Valid) :
    (printAllocationDiffSummary F ro₁ want have_).Perm
      (printAllocationDiffSummary F ro₂ want have_) ∧
    (∀ (label : String) (w h : SubstateAccount),
      (printAccountDiffSummary F ro₁ label w h).Perm
        (printAccountDiffSummary F ro₂ label w h)) := by
  have hp : ∀ i m, (ro₁.alloc i m).Perm (ro₂.alloc i m) :=
    fun i m => (h₁.1 i m).trans (h₂.1 i m).symm
  refine ⟨?_, fun label w h => printAccountDiffSummary_perm F ro₁ ro₂ label w h h₁ h₂⟩
  rw [printAllocationDiffSummary_eq, printAllocationDiffSummary_eq]
  refine List.Perm.append (List.Perm.append (List.Perm.append (List.Perm.refl _) ?_) ?_) ?_
  · exact ((hp 0 want).filter _).map _
  · exact ((hp 1 have_).filter _).map _
  · exact ((hp 2 have_).flatMap_right _).trans
      (List.Perm.flatMap_left _ (fun kv _ => accountDiff_perm F ro₁ ro₂ want kv h₁ h₂))

/-- The listed and the reversed enumeration on two missing accounts. -/
theorem printAllocationDiffSummary_perm_witness :
    (printAllocationDiffSummary decimalFmt RangeOrder.listed twoAccounts []).Perm
      (printAllocationDiffSummary decimalFmt RangeOrder.reversed twoAccounts []) :=
  (printAllocationDiffSummary_perm decimalFmt RangeOrder.listed RangeOrder.reversed
    twoAccounts [] listed_valid reversed_valid).1

/-! ## Reading decimal numerals -/

theorem digitChar_toNat (k : Nat) (hk : k < 10) : (Nat.digitChar k).toNat = 48 + k := by
  interval_cases k <;> rfl

theorem decimalValue_ge (cs : List Char) (acc : Nat) : acc ≤ decimalValue acc cs := by
  induction cs generalizing acc with
  | nil => simp [decimalValue]
  | cons c cs ih =>
    have h := ih (acc * 10 + (c.toNat - 48))
    simp only [decimalValue, List.foldl_cons] at h ⊢
    omega

theorem decimalValue_append (xs ys : List Char) (acc : Nat) :
    decimalValue acc (xs ++ ys) = decimalValue (decimalValue acc xs) ys := by
  simp [decimalValue, List.foldl_append]

/-- The digits that `Nat.toDigitsCore` puts in front of `ds` are decimal digits and denote
the number. -/
theorem toDigitsCore_spec (fuel : Nat) : ∀ (n : Nat) (ds : List Char), n < fuel →
    ∃ cs : List Char, Nat.toDigitsCore 10 fuel n ds = cs ++ ds ∧ cs ≠ [] ∧
      (∀ c ∈ cs, 48 ≤ c.toNat ∧ c.toNat ≤ 57) ∧ decimalValue 0 cs = n := by
  induction fuel with
  | zero => intro n ds h; omega
  | succ fuel ih =>
    intro n ds hn
    have hmod : n % 10 < 10 := Nat.mod_lt _ (by decide)
    have hd := digitChar_toNat (n % 10) hmod
    by_cases hq : n / 10 = 0
    · refine ⟨[Nat.digitChar (n % 10)], ?_, by simp, ?_, ?_⟩
      · simp [Nat.toDigitsCore, hq]
      · intro c hc
        simp only [List.mem_singleton] at hc
        subst hc
        omega
      · simp only [decimalValue, List.foldl_cons, List.foldl_nil, hd]
        omega
    · have hlt : n / 10 < fuel := by omega
      obtain ⟨cs, hcs, _, hdig, hval⟩ := ih (n / 10) (Nat.digitChar (n % 10) :: ds) hlt
      refine ⟨cs ++ [Nat.digitChar (n % 10)], ?_, by simp, ?_, ?_⟩
      · simp [Nat.toDigitsCore, hq, hcs]
      · intro c hc
        rcases List.mem_append.mp hc with hc | hc
        · exact hdig c hc
        · simp only [List.mem_singleton] at hc
          subst hc
          omega
      · rw [decimalValue_append, hval]
        simp only [decimalValue, List.foldl_cons, List.foldl_nil, hd]
        omega

theorem toString_data_spec (n : Nat) :
    (toString n).data ≠ [] ∧ (∀ c ∈ (toString n).data, 48 ≤ c.toNat ∧ c.toNat ≤ 57) ∧
      decimalValue 0 (toString n).data = n := by
  obtain ⟨cs, hcs, hne, hdig, hval⟩ := toDigitsCore_spec (n + 1) n [] (Nat.lt_succ_self n)
  have hdata : (toString n).data = cs := by
    show (Nat.repr n).data = cs
    simp [Nat.repr, Nat.toDigits, hcs, List.asString]
  rw [hdata]
  exact ⟨hne, hdig, hval⟩

/-- On decimal digits whose value fits in 64 bits the loop of `ParseUint` returns that
value without error. -/
theorem parseUintLoop_of_small (cs : List Char) : ∀ acc : Nat,
    (∀ c ∈ cs, 48 ≤ c.toNat ∧ c.toNat ≤ 57) → decimalValue acc cs < 2 ^ 64 →
    parseUintLoop cs acc = (decimalValue acc cs, none) := by
  induction cs with
  | nil => intro acc _ _; simp [parseUintLoop, decimalValue]
  | cons c cs ih =>
    intro acc hdig hval
    have hc := hdig c (List.mem_cons_self c cs)
    have hval2 : decimalValue (acc * 10 + (c.toNat - 48)) cs < 2 ^ 64 := by
      simpa [decimalValue] using hval
    have hge := decimalValue_ge cs (acc * 10 + (c.toNat - 48))
    have hsmall : acc * 10 + (c.toNat - 48) < 2 ^ 64 := lt_of_le_of_lt hge hval2
    have hmod : (acc * 10 + (c.toNat - 48)) % 2 ^ 64 = acc * 10 + (c.toNat - 48) :=
      Nat.mod_eq_of_lt hsmall
    have hcut : ¬ acc ≥ (2 ^ 64 - 1) / 10 + 1 := by omega
    have hover : ¬ (acc * 10 + (c.toNat - 48) < acc * 10 ∨
        acc * 10 + (c.toNat - 48) > 2 ^ 64 - 1) := by omega
    have hrec := ih (acc * 10 + (c.toNat - 48))
      (fun x hx => hdig x (List.mem_cons_of_mem c hx)) hval2
    simp only [parseUintLoop, hc, and_self, if_true, hcut, if_false, hmod, hover, hrec]
    simp [decimalValue]

/-- On decimal digits whose value does not fit in 64 bits the loop of `ParseUint` returns a
range error. -/
theorem parseUintLoop_of_large (cs : List Char) : ∀ acc : Nat,
    (∀ c ∈ cs, 48 ≤ c.toNat ∧ c.toNat ≤ 57) → acc < 2 ^ 64 → 2 ^ 64 ≤ decimalValue acc cs →
    parseUintLoop cs acc = (2 ^ 64 - 1, some NumError.ErrRange) := by
  induction cs with
  | nil =>
    intro acc _ hacc hval
    simp only [decimalValue, List.foldl_nil] at hval
    omega
  | cons c cs ih =>
    intro acc hdig hacc hval
    have hc := hdig c (List.mem_cons_self c cs)
    have hval2 : 2 ^ 64 ≤ decimalValue (acc * 10 + (c.toNat - 48)) cs := by
      simpa [decimalValue] using hval
    by_cases hcut : acc ≥ (2 ^ 64 - 1) / 10 + 1
    · simp only [parseUintLoop, hc, and_self, if_true, hcut]
    · by_cases hsmall : acc * 10 + (c.toNat - 48) < 2 ^ 64
      · have hmod : (acc * 10 + (c.toNat - 48)) % 2 ^ 64 = acc * 10 + (c.toNat - 48) :=
          Nat.mod_eq_of_lt hsmall
        have hover : ¬ (acc * 10 + (c.toNat - 48) < acc * 10 ∨
            acc * 10 + (c.toNat - 48) > 2 ^ 64 - 1) := by omega
        have hrec := ih (acc * 10 + (c.toNat - 48))
          (fun x hx => hdig x (List.mem_cons_of_mem c hx)) hsmall hval2
        simp only [parseUintLoop, hc, and_self, if_true, hcut, if_false, hmod, hover, hrec]
      · have hwrap : (acc * 10 + (c.toNat - 48)) % 2 ^ 64 < acc * 10 := by omega
        simp only [parseUintLoop, hc, and_self, if_true, hcut, if_false, hwrap, true_or]

/-- A value that `ParseInt` returns without error is a signed 64-bit integer. -/
theorem ParseInt_bounds (s : String) (v : Int) (h : ParseInt s = (v, none)) :
    -(2 ^ 63 : Int) ≤ v ∧ v < 2 ^ 63 := by
  unfold ParseInt at h
  split at h
  · simp at h
  · rename_i c cs _
    simp only at h
    generalize ParseUint (if c = '+' ∨ c = '-' then cs else c :: cs) = r at h
    obtain ⟨un, err⟩ := r
    simp only at h
    split at h
    · rename_i he
      simp [he] at h
    · split at h
      · simp at h
      · split at h
        · simp at h
        · rename_i h1 h2
          simp only [Prod.mk.injEq, and_true] at h
          by_cases hneg : c = '-'
          · simp [hneg] at h1 h2 h
            subst h
            omega
          · simp [hneg] at h1 h2 h
            subst h
            omega

/-- The decimal numeral of a natural number is read back by `ParseInt` when the number is
below `2^63`, and is refused with a range error otherwise. -/
theorem ParseInt_toString (n : Nat) :
    ParseInt (toString n) =
      if n < 2 ^ 63 then ((n : Int), none) else ((2 ^ 63 - 1 : Int), some NumError.ErrRange) := by
  obtain ⟨hne, hdig, hval⟩ := toString_data_spec n
  unfold ParseInt
  cases hdata : (toString n).data with
  | nil => exact absurd hdata hne
  | cons c cs =>
    rw [hdata] at hdig hval
    have hc := hdig c (List.mem_cons_self c cs)
    have hplus : c ≠ '+' := by
      intro h; subst h; revert hc; decide
    have hminus : c ≠ '-' := by
      intro h; subst h; revert hc; decide
    simp only [ParseUint, hplus, hminus, or_self, if_false, decide_False]
    by_cases hsmall : n < 2 ^ 64
    · have hp := parseUintLoop_of_small (c :: cs) 0 hdig (by rw [hval]; exact hsmall)
      rw [hval] at hp
      simp only [List.cons_ne_nil, if_false, hp]
      by_cases h63 : n < 2 ^ 63
      · have h1 : ¬ 9223372036854775808 ≤ n := by omega
        have h2 : n < 9223372036854775808 := by omega
        simp [h1, h2]
      · have h1 : 9223372036854775808 ≤ n := by omega
        have h2 : ¬ n < 9223372036854775808 := by omega
        simp [h1, h2]
    · have hp := parseUintLoop_of_large (c :: cs) 0 hdig (by decide)
        (by rw [hval]; omega)
      have h63 : ¬ n < 2 ^ 63 := by omega
      simp only [List.cons_ne_nil, if_false, hp, h63]
      simp

/-! ## The command actions -/

theorem replayAction_of_rejected (W : World) (ctx : Context)
    (h : acceptedRange ctx.Args = none) :
    ∃ msg trace, replayAction W ctx = (some (GoError.errorf msg), trace) ∧
      ∀ ev ∈ trace, ∃ s, ev = Event.Printf s := by
  obtain ⟨args, chainid, pc, po, cpu, interp, os, fs⟩ := ctx
  simp only at h
  rcases args with _ | ⟨a, _ | ⟨b, _ | ⟨c, rest⟩⟩⟩
  · exact ⟨"substate-cli replay command requires exactly 2 arguments", [], by simp [replayAction], by simp⟩
  · exact ⟨"substate-cli replay command requires exactly 2 arguments", [], by simp [replayAction], by simp⟩
  · simp only [acceptedRange] at h
    unfold replayAction
    simp only [List.length_cons, List.length_nil, List.getD_cons_zero, List.getD_cons_succ]
    rw [if_neg (by decide)]
    by_cases hp : ((ParseInt a).2.isSome || (ParseInt b).2.isSome) = true
    · rw [if_pos hp]
      exact ⟨_, _, rfl, by simp⟩
    · rw [if_neg hp]
      by_cases hn : (decide ((ParseInt a).1 < 0) || decide ((ParseInt b).1 < 0)) = true
      · rw [if_pos hn]
        exact ⟨_, _, rfl, by simp⟩
      · rw [if_neg hn]
        by_cases ho : (ParseInt a).1 > (ParseInt b).1
        · rw [if_pos ho]
          exact ⟨_, _, rfl, by simp⟩
        · exfalso
          simp only [Bool.or_eq_true, Option.isSome_iff_ne_none, ne_eq, not_or, not_not,
            decide_eq_true_eq, not_lt] at hp hn
          simp only [ite_eq_right_iff, imp_false] at h
          exact Option.some_ne_none _ (h ⟨hp.1, hp.2, hn.1, not_lt.mp ho⟩)
  · exact ⟨"substate-cli replay command requires exactly 2 arguments", [], by simp [replayAction], by simp⟩

theorem getStorageFlatDataAction_of_rejected (W : World) (ctx : Context)
    (h : acceptedRange ctx.Args = none) :
    ∃ msg trace, getStorageFlatDataAction W ctx = (some (GoError.errorf msg), trace) ∧
      ∀ ev ∈ trace, ∃ s, ev = Event.Printf s := by
  obtain ⟨args, chainid, pc, po, cpu, interp, os, fs⟩ := ctx
  simp only at h
  rcases args with _ | ⟨a, _ | ⟨b, _ | ⟨c, rest⟩⟩⟩
  · exact ⟨"substate-cli storage command requires exactly 2 arguments", [], by simp [getStorageFlatDataAction], by simp⟩
  · exact ⟨"substate-cli storage command requires exactly 2 arguments", [], by simp [getStorageFlatDataAction], by simp⟩
  · simp only [acceptedRange] at h
    unfold getStorageFlatDataAction
    simp only [List.length_cons, List.length_nil, List.getD_cons_zero, List.getD_cons_succ]
    rw [if_neg (by decide)]
    by_cases hp : ((ParseInt a).2.isSome || (ParseInt b).2.isSome) = true
    · rw [if_pos hp]
      exact ⟨_, _, rfl, by simp⟩
    · rw [if_neg hp]
      by_cases hn : (decide ((ParseInt a).1 < 0) || decide ((ParseInt b).1 < 0)) = true
      · rw [if_pos hn]
        exact ⟨_, _, rfl, by simp⟩
      · rw [if_neg hn]
        by_cases ho : (ParseInt a).1 > (ParseInt b).1
        · rw [if_pos ho]
          exact ⟨_, _, rfl, by simp⟩
        · exfalso
          simp only [Bool.or_eq_true, Option.isSome_iff_ne_none, ne_eq, not_or, not_not,
            decide_eq_true_eq, not_lt] at hp hn
          simp only [ite_eq_right_iff, imp_false] at h
          exact Option.some_ne_none _ (h ⟨hp.1, hp.2, hn.1, not_lt.mp ho⟩)
  · exact ⟨"substate-cli storage command requires exactly 2 arguments", [], by simp [getStorageFlatDataAction], by simp⟩

theorem toUint64_of_nonneg (x : Int) (h0 : 0 ≤ x) (h : x < 2 ^ 63) : toUint64 x = x.toNat := by
  unfold toUint64
  rw [Int.emod_eq_of_lt h0 (by omega)]

theorem acceptedRange_some (args : List String) (first last : Int)
    (h : acceptedRange args = some (first, last)) :
    ∃ a b, args = [a, b] ∧ ParseInt a = (first, none) ∧ ParseInt b = (last, none) ∧
      0 ≤ first ∧ first ≤ last := by
  rcases args with _ | ⟨a, _ | ⟨b, _ | ⟨c, rest⟩⟩⟩
  · simp [acceptedRange] at h
  · simp [acceptedRange] at h
  · simp only [acceptedRange] at h
    split at h
    · rename_i hc
      simp only [Option.some.injEq, Prod.mk.injEq] at h
      refine ⟨a, b, rfl, ?_, ?_, ?_, ?_⟩
      · exact Prod.ext h.1 hc.1
      · exact Prod.ext h.2 hc.2.1
      · rw [← h.1]; exact hc.2.2.1
      · rw [← h.1, ← h.2]; exact hc.2.2.2
    · simp at h
  · simp [acceptedRange] at h

theorem replayAction_of_accepted (W : World) (ctx : Context) (first last : Int)
    (h : acceptedRange ctx.Args = some (first, last)) :
    Event.OpenSubstateDBReadOnly ∈ (replayAction W ctx).2 ∧
    ((ctx.cpuprofile = "" ∨ W.Create ctx.cpuprofile = none) →
      Event.NewSubstateTaskPool "substate-cli replay" first.toNat last.toNat ∈
        (replayAction W ctx).2 ∧
      (replayAction W ctx).1 = W.Execute "substate-cli replay" first.toNat last.toNat) := by
  obtain ⟨a, b, hargs, hpa, hpb, h0, hle⟩ := acceptedRange_some ctx.Args first last h
  have hlast := (ParseInt_bounds b last hpb).2
  have hu1 : toUint64 first = first.toNat := toUint64_of_nonneg first h0 (by omega)
  have hu2 : toUint64 last = last.toNat := toUint64_of_nonneg last (by omega) hlast
  have hn : (decide (first < 0) || decide (last < 0)) = false := by
    simp only [Bool.or_eq_false_iff, decide_eq_false_iff_not, not_lt]
    exact ⟨h0, by omega⟩
  have ho : ¬ first > last := by omega
  unfold replayAction
  simp only [hargs, List.length_cons, List.length_nil, List.getD_cons_zero,
    List.getD_cons_succ, hpa, hpb, hu1, hu2, hn, ho]
  constructor
  · by_cases hcpu : ctx.cpuprofile = ""
    · simp [hcpu]
      cases ctx.profilingOpcode <;> cases ctx.interpreter.endsWith "-stats" <;> simp
    · cases hcr : W.Create ctx.cpuprofile with
      | none =>
        simp [hcpu, hcr]
        cases ctx.profilingOpcode <;> cases ctx.interpreter.endsWith "-stats" <;> simp
      | some err => simp [hcpu, hcr]
  · intro hok
    by_cases hcpu : ctx.cpuprofile = ""
    · simp [hcpu]
      cases ctx.profilingOpcode <;> cases ctx.interpreter.endsWith "-stats" <;> simp
    · have hcr : W.Create ctx.cpuprofile = none := by
        rcases hok with hok | hok
        · exact absurd hok hcpu
        · exact hok
      simp [hcpu, hcr]
      cases ctx.profilingOpcode <;> cases ctx.interpreter.endsWith "-stats" <;> simp

theorem getStorageFlatDataAction_of_accepted (W : World) (ctx : Context) (first last : Int)
    (h : acceptedRange ctx.Args = some (first, last)) :
    Event.OpenSubstateDBReadOnly ∈ (getStorageFlatDataAction W ctx).2 ∧
    Event.NewSubstateTaskPool "substate-cli storage-flat" first.toNat last.toNat ∈
      (getStorageFlatDataAction W ctx).2 ∧
    (getStorageFlatDataAction W ctx).1 =
      W.Execute "substate-cli storage-flat" first.toNat last.toNat := by
  obtain ⟨a, b, hargs, hpa, hpb, h0, hle⟩ := acceptedRange_some ctx.Args first last h
  have hlast := (ParseInt_bounds b last hpb).2
  have hu1 : toUint64 first = first.toNat := toUint64_of_nonneg first h0 (by omega)
  have hu2 : toUint64 last = last.toNat := toUint64_of_nonneg last (by omega) hlast
  have hn : (decide (first < 0) || decide (last < 0)) = false := by
    simp only [Bool.or_eq_false_iff, decide_eq_false_iff_not, not_lt]
    exact ⟨h0, by omega⟩
  have ho : ¬ first > last := by omega
  unfold getStorageFlatDataAction
  simp [hargs, hpa, hpb, hu1, hu2, hn, ho]

theorem acceptedRange_toString (a b : Nat) :
    acceptedRange [toString a, toString b] =
      if a ≤ b ∧ b < 2 ^ 63 then some ((a : Int), (b : Int)) else none := by
  simp only [acceptedRange, ParseInt_toString]
  by_cases ha : a < 9223372036854775808 <;> by_cases hb : b < 9223372036854775808
  · by_cases hab : a ≤ b
    · have hab' : (a : Int) ≤ (b : Int) := by omega
      simp [ha, hb, hab, hab']
    · have hab' : ¬ (a : Int) ≤ (b : Int) := by omega
      simp [ha, hb, hab, hab']
  · simp [ha, hb]
  · have hab : ¬ a ≤ b := by omega
    simp [ha, hb, hab]
  · simp [ha, hb]

/-- C10, as stated, fails: the arguments 0 and 9223372036854775808 are non-negative integers
with first ≤ last, and the second is `2^63`, a block number that fits an unsigned 64-bit
integer; both actions reject them with the error for an argument that is not an integer and
do not open the substate store. -/
theorem actions_reject_block_number_two_pow_63 :
    (9223372036854775808 : Nat) = 2 ^ 63 ∧ (9223372036854775808 : Nat) < 2 ^ 64 ∧
    replayAction sampleWorld (sampleContext ["0", "9223372036854775808"]) =
      (some (GoError.errorf
        "substate-cli replay: error in parsing parameters: block number not an integer"),
       [Event.Printf "chain-id: 250\n", Event.Printf "git-date: \n",
        Event.Printf "git-commit: \n"]) ∧
    getStorageFlatDataAction sampleWorld (sampleContext ["0", "9223372036854775808"]) =
      (some (GoError.errorf
        "substate-cli storage-flat: error in parsing parameters: block number not an integer"),
       [Event.Printf "chain-id: 250\n", Event.Printf "git-date: \n",
        Event.Printf "git-commit: \n"]) := by
  decide

/-- C10, amended: `replayAction` (and likewise `getStorageFlatDataAction`) passes argument
validation if and only if it is given exactly two arguments that `strconv.ParseInt` reads as
base-10 signed 64-bit integers `first` and `last` with `0 ≤ first ≤ last`; in particular two
decimal numerals are accepted exactly when `first ≤ last ≤ 2^63 - 1`, which includes
`first = last = 0`. An accepted pair becomes the inclusive range `[first, last]` handed to
the task pool (for `replayAction`, provided the requested CPU profile file can be created),
and every other argument list is rejected with an error built by the action itself, with
nothing done but printing: the substate store is not opened and no task pool is made or
run. -/
theorem actions_argument_validation (W : World) (ctx : Context) :
    (Event.OpenSubstateDBReadOnly ∈ (replayAction W ctx).2 ↔
      (acceptedRange ctx.Args).isSome = true) ∧
    (Event.OpenSubstateDBReadOnly ∈ (getStorageFlatDataAction W ctx).2 ↔
      (acceptedRange ctx.Args).isSome = true) ∧
    (acceptedRange ctx.Args = none →
      (∃ msg, (replayAction W ctx).1 = some (GoError.errorf msg)) ∧
      (∀ ev ∈ (replayAction W ctx).2, ∃ s, ev = Event.Printf s) ∧
      (∃ msg, (getStorageFlatDataAction W ctx).1 = some (GoError.errorf msg)) ∧
      (∀ ev ∈ (getStorageFlatDataAction W ctx).2, ∃ s, ev = Event.Printf s)) ∧
    (∀ first last : Int, acceptedRange ctx.Args = some (first, last) →
      (∃ a b, ctx.Args = [a, b] ∧ ParseInt a = (first, none) ∧ ParseInt b = (last, none)) ∧
      0 ≤ first ∧ first ≤ last ∧ last < 2 ^ 63 ∧
      Event.NewSubstateTaskPool "substate-cli storage-flat" first.toNat last.toNat ∈
        (getStorageFlatDataAction W ctx).2 ∧
      (getStorageFlatDataAction W ctx).1 =
        W.Execute "substate-cli storage-flat" first.toNat last.toNat ∧
      ((ctx.cpuprofile = "" ∨ W.Create ctx.cpuprofile = none) →
        Event.NewSubstateTaskPool "substate-cli replay" first.toNat last.toNat ∈
          (replayAction W ctx).2 ∧
        (replayAction W ctx).1 = W.Execute "substate-cli replay" first.toNat last.toNat)) ∧
    (∀ a b : Nat, acceptedRange [toString a, toString b] =
      if a ≤ b ∧ b < 2 ^ 63 then some ((a : Int), (b : Int)) else none) := by
  have hrej : acceptedRange ctx.Args = none →
      Event.OpenSubstateDBReadOnly ∉ (replayAction W ctx).2 ∧
      Event.OpenSubstateDBReadOnly ∉ (getStorageFlatDataAction W ctx).2 := by
    intro hnone
    obtain ⟨_, t1, h1, hp1⟩ := replayAction_of_rejected W ctx hnone
    obtain ⟨_, t2, h2, hp2⟩ := getStorageFlatDataAction_of_rejected W ctx hnone
    rw [h1, h2]
    constructor
    · intro hmem
      obtain ⟨s, hs⟩ := hp1 _ hmem
      exact Event.noConfusion hs
    · intro hmem
      obtain ⟨s, hs⟩ := hp2 _ hmem
      exact Event.noConfusion hs
  refine ⟨?_, ?_, ?_, ?_, acceptedRange_toString⟩
  · cases hacc : acceptedRange ctx.Args with
    | none => simpa using (hrej hacc).1
    | some r => simpa using (replayAction_of_accepted W ctx r.1 r.2 hacc).1
  · cases hacc : acceptedRange ctx.Args with
    | none => simpa using (hrej hacc).2
    | some r => simpa using (getStorageFlatDataAction_of_accepted W ctx r.1 r.2 hacc).1
  · intro hnone
    obtain ⟨m1, t1, h1, hp1⟩ := replayAction_of_rejected W ctx hnone
    obtain ⟨m2, t2, h2, hp2⟩ := getStorageFlatDataAction_of_rejected W ctx hnone
    rw [h1, h2]
    exact ⟨⟨m1, rfl⟩, hp1, ⟨m2, rfl⟩, hp2⟩
  · intro first last hacc
    obtain ⟨a, b, hargs, hpa, hpb, h0, hle⟩ := acceptedRange_some ctx.Args first last hacc
    have hs := getStorageFlatDataAction_of_accepted W ctx first last hacc
    exact ⟨⟨a, b, hargs, hpa, hpb⟩, h0, hle, (ParseInt_bounds b last hpb).2, hs.2.1, hs.2.2,
      (replayAction_of_accepted W ctx first last hacc).2⟩

/-- The arguments 0 and 0 with no CPU profile requested. -/
theorem actions_argument_validation_witness :
    Event.NewSubstateTaskPool "substate-cli replay" 0 0 ∈
        (replayAction sampleWorld (sampleContext ["0", "0"])).2 ∧
      (replayAction sampleWorld (sampleContext ["0", "0"])).1 =
        sampleWorld.Execute "substate-cli replay" 0 0 :=
  ((actions_argument_validation sampleWorld (sampleContext ["0", "0"])).2.2.2.1 0 0
    (by decide)).2.2.2.2.2.2 (Or.inl rfl)

end Replay
